import Mathlib

/-! The sound dispatcher of `src/tools/soundtool.cpp`.

A shallow embedding of the live (SFML) part of `soundtool.cpp`: the globals
become the fields of `State`, every function becomes a state transformer, and
each call on an external collaborator (resource manager, audio engine, `printf`,
`sf::sleep`) is appended to `State.trace` in program order.

Conventions.

* `short`, `char` and `int` values are `Int`.  The only arithmetic the source
  performs on them is `channel++` (wrapped by `to_char`), `which *= -1` under
  `which > 0`, `how_many_times - 1` under `how_many_times > 1` and `abs` on an
  `int`, none of which can leave the range of the type for arguments that are
  `short`s.  Past the range check `abs(which)` is at most `NUM_SOUNDS`, which is
  taken to fit a `short` and a `snd_num_t`, so that passing it to `sound_going`
  and storing it in `snd_played` do not change it.
* Arrays are total functions on `Int`; the index of every access whose index is
  not a constant is visible in the trace (`Event.handle`, `Event.play`,
  `Event.wait`), so that range properties are properties of the trace.  An
  access outside the bounds of the array is undefined behaviour in the source;
  what the functions return after one describes the model only.
* `NUM_SOUNDS`, declared in a header that is not part of the sources, is a
  parameter (`Env.NUM_SOUNDS`), and so is the resource loader
  `ResMgr::get<SoundRsrc>` (`Env.get`, returning `none` for a null pointer).
* The block under `#if defined(WIN32)` is not compiled on the target platform
  and is not modelled.
* `Event.wait ch` stands for one complete execution of the polling loop
  `while(chan[ch].getStatus() == sf::Sound::Playing);`, which is left exactly
  when the status of the channel is no longer `Playing`.
-/

namespace SoundTool

/-- An audio buffer, identified by the resource it was loaded from. -/
structure SoundBuffer where
  rsrc : Int
deriving DecidableEq, Repr

/-- Calls on external collaborators and indexed array accesses, in program order. -/
inductive Event where
  /-- The call `ResMgr::setIdMapFn<SoundRsrc>(sound_to_fname_map)`. -/
  | setIdMapFn
  /-- The diagnostic `printf("Error: Sound #%i does not exist.\n", n)`. -/
  | printf (n : Int)
  /-- The call `ResMgr::get<SoundRsrc>(n)`. -/
  | get (n : Int)
  /-- A read of `sound_handles[i]`. -/
  | handle (i : Int)
  /-- The statements `chan[ch] = sf::Sound(buf); chan[ch].play();`. -/
  | play (ch : Int) (buf : SoundBuffer)
  /-- The polling loop on `chan[ch].getStatus()` of line 109. -/
  | wait (ch : Int)
  /-- The call `sf::sleep(time_in_ticks(ticks))`. -/
  | sleep (ticks : Int)
deriving DecidableEq, Repr

/-- What the translation unit takes from outside: the catalog size and the loader. -/
structure Env where
  /-- The constant `NUM_SOUNDS` (its header is not among the sources). -/
  NUM_SOUNDS : Int
  /-- The loader `ResMgr::get<SoundRsrc>`, an external collaborator: the buffer of a
  sound index, or `none` (the null pointer) when the resource cannot be found. -/
  get : Int → Option SoundBuffer

/-- The globals of `soundtool.cpp` (and the static local `inited` of `play_sound`),
together with two logs that are not program variables: `trace` and `dispatched`. -/
structure State where
  /-- The catalog `sound_handles[NUM_SOUNDS]`. -/
  sound_handles : Int → Option SoundBuffer
  /-- The channel cursor `channel`. -/
  channel : Int
  /-- The array `snd_played[4]`. -/
  snd_played : Int → Int
  /-- The flag `play_sounds`. -/
  play_sounds : Bool
  /-- The marker `last_played`. -/
  last_played : Int
  /-- The map `sound_delay`; `operator[]` inserts a zero entry for a missing key. -/
  sound_delay : List (Int × Int)
  /-- The static local `inited` of `play_sound`. -/
  inited : Bool
  /-- Log of external calls and indexed accesses, oldest first. -/
  trace : List Event
  /-- Log of the values `abs(which)` with which control reached line 92, oldest first. -/
  dispatched : List Int

/-- The constant `numchannel`. -/
def numchannel : Int := 4

/-- The set `always_async`. -/
def always_async : List Int :=
  [6, 24, 25, 34, 37,
   39, 41, 42, 43, 44,
   45, 46, 47, 48, 49,
   50, 55, 61, 76, 77,
   78, 79, 80, 81, 82,
   83, 85, 91]

/-- The set `load_on_init`. -/
def load_on_init : List Int :=
  [0, 1, 6, 10, 11,
   12, 14, 27, 34, 37,
   47, 48, 49, 50, 55,
   61, 69, 70, 71, 72,
   73, 74, 75, 85, 86,
   87, 88, 89, 99]

/-- The initial contents of the map `sound_delay`. -/
def sound_delay_table : List (Int × Int) :=
  [(24, 25), (25, 25), (34, 8), (37, 8), (43, 10),
   (44, 20), (61, 13)]

/-- The C function `abs` on `int`. -/
def c_abs (x : Int) : Int := if x < 0 then -x else x

/-- Conversion of an `int` to a (signed, 8 bit) `char`. -/
def to_char (x : Int) : Int := (x + 128) % 256 - 128

/-- Assignment `a[i] = v` on an array. -/
def store {α : Type} (a : Int → α) (i : Int) (v : α) : Int → α :=
  fun j => if j = i then v else a j

/-- The expression `sound_delay[k]`: the value found, or a zero entry that is inserted. -/
def delay_at (m : List (Int × Int)) (k : Int) : Int × List (Int × Int) :=
  match m.lookup k with
  | some v => (v, m)
  | none => (0, m ++ [(k, 0)])

/-- The function `sound_going` (lines 50-57). -/
def sound_going (snd_played : Int → Int) (which_s : Int) : Bool :=
  [0, 1, 2, 3].any fun i => snd_played i == which_s

/-- Appends events to the trace. -/
def State.emit (s : State) (es : List Event) : State :=
  { s with trace := s.trace ++ es }

/-- Lines 76-80 of `play_sound`: the one-time registration of the id map. -/
def register (s : State) : State :=
  if s.inited then s else { s with inited := true, trace := s.trace ++ [Event.setIdMapFn] }

/-- Lines 92-94 of `play_sound`: `channel++; if(channel >= numchannel) channel = 0;`. -/
def next_channel (channel : Int) : Int :=
  let channel := to_char (channel + 1)
  if channel ≥ numchannel then 0 else channel

/-- The condition of line 96: the sound is not going and is not in `load_on_init`. -/
def on_demand (s : State) (n : Int) : Bool :=
  !sound_going s.snd_played n && !load_on_init.contains n

/-- Lines 96-98 of `play_sound`: the buffer assigned to `sndhandle`.  The catalog is read
as a total function: for an index outside `[0, NUM_SOUNDS)` the read of the source is out
of bounds (undefined behaviour), the value returned here stands for nothing, and only the
index, logged as `Event.handle`, is meaningful. -/
def sndhandle (env : Env) (s : State) (n : Int) : Option SoundBuffer :=
  if on_demand s n then env.get n else s.sound_handles n

/-- Lines 96-98 of `play_sound`: the call or the array access that yields `sndhandle`. -/
def fetch (s : State) (n : Int) : Event :=
  if on_demand s n then Event.get n else Event.handle n

/-- Lines 100-102 of `play_sound`: the value of `which` after the forced-async override. -/
def forced (which : Int) : Int :=
  if 0 < which ∧ which ∈ always_async then which * -1 else which

/-- Lines 92-114 of `play_sound`: one dispatch.  Returns the value of `which` after
line 102 together with the new state. -/
def dispatch (env : Env) (which : Int) (s : State) : Int × State :=
  -- 92-94
  let channel := next_channel s.channel
  let s1 := { s with channel := channel, dispatched := s.dispatched ++ [c_abs which] }
  -- 96-98
  let handle := sndhandle env s (c_abs which)
  let s2 := s1.emit [fetch s (c_abs which)]
  -- 100-102
  let which := forced which
  -- 104-112
  let s3 :=
    match handle with
    | some buf =>
      let t := s2.emit [Event.play channel buf]
      let t := if 0 < which then t.emit [Event.wait channel] else t
      { t with snd_played := store t.snd_played channel (c_abs which) }
    | none => s2
  -- 113-114
  let s4 :=
    if which < 0 then
      let d := delay_at s3.sound_delay (-1 * which)
      { s3 with sound_delay := d.2, trace := s3.trace ++ [Event.sleep d.1] }
    else s3
  (which, s4)

/-- The function `play_sound` (lines 75-117), with the depth of the recursion bounded
by `fuel`. -/
def play_sound_fuel (env : Env) : Nat → Int → Int → State → State
  | 0, _, _, s => s
  | fuel + 1, which, how_many_times, s =>
    -- 76-80
    let s := register s
    -- 83
    if s.play_sounds = false ∨ how_many_times = 0 then s
    -- 85-90
    else if c_abs which > env.NUM_SOUNDS then s.emit [Event.printf (c_abs which)]
    else
      -- 92-114
      let r := dispatch env which s
      -- 115-116
      if how_many_times > 1 then play_sound_fuel env fuel r.1 (how_many_times - 1) r.2
      else r.2

/-- The function `play_sound`: the recursion on `how_many_times` is at most
`how_many_times` deep (one deep when `how_many_times` is not positive). -/
def play_sound (env : Env) (which how_many_times : Int) (s : State) : State :=
  play_sound_fuel env ((how_many_times - 1).toNat + 1) which how_many_times s

/-- Modelled from the spec: the default argument of `how_many_times` in the declaration
of `play_sound` (header `soundtool.h`, not among the sources); "play once" makes one
dispatch of the sound. -/
def default_how_many_times : Int := 1

/-- The function `one_sound` (lines 242-247). -/
def one_sound (env : Env) (which : Int) (s : State) : State :=
  if which = s.last_played then s
  else { play_sound env which default_how_many_times s with last_played := which }

/-- The function `clear_sound_memory` (lines 249-251). -/
def clear_sound_memory (s : State) : State :=
  { s with last_played := 100 }

/-- The function `flip_sound` (lines 253-255). -/
def flip_sound (s : State) : State :=
  { s with play_sounds := if s.play_sounds then false else true }

/-- Lines 70-71 of `init_snd_tool`: the body of the loop over `load_on_init`. -/
def init_load (env : Env) (s : State) (i : Int) : State :=
  if i = 0 then s
  else { s with sound_handles := store s.sound_handles i (env.get i),
                trace := s.trace ++ [Event.get i] }

/-- The function `init_snd_tool` (lines 65-73); the set is visited in the order of
`load_on_init`. -/
def init_snd_tool (env : Env) (s : State) : State :=
  load_on_init.foldl (init_load env) (s.emit [Event.setIdMapFn])

/-- The state at program start: zero-initialised globals, `play_sounds = true` and the
initial `sound_delay`. -/
def startup : State :=
  { sound_handles := fun _ => none
    channel := 0
    snd_played := fun _ => 0
    play_sounds := true
    last_played := 0
    sound_delay := sound_delay_table
    inited := false
    trace := []
    dispatched := [] }

/-- The entry points of the translation unit. -/
inductive Op where
  | init_snd_tool
  | play_sound (which how_many_times : Int)
  | one_sound (which : Int)
  | clear_sound_memory
  | flip_sound
deriving DecidableEq, Repr

/-- One call of an entry point. -/
def step (env : Env) (s : State) : Op → State
  | Op.init_snd_tool => init_snd_tool env s
  | Op.play_sound which how_many_times => play_sound env which how_many_times s
  | Op.one_sound which => one_sound env which s
  | Op.clear_sound_memory => clear_sound_memory s
  | Op.flip_sound => flip_sound s

/-- A sequence of calls, first call first. -/
def run (env : Env) (ops : List Op) (s : State) : State :=
  ops.foldl (step env) s

/-- The events of a trace that start a playback. -/
def plays (t : List Event) : List Event :=
  t.filter fun e => match e with
    | Event.play _ _ => true
    | _ => false

/-- An environment with `NUM_SOUNDS = 100` whose loader resolves exactly the ids of
the catalog, `0 ≤ n < 100`. -/
def env100 : Env :=
  { NUM_SOUNDS := 100
    get := fun n => if 0 ≤ n ∧ n < 100 then some ⟨n⟩ else none }

/-- The state after `init_snd_tool` at program start, in `env100`. -/
def ready : State := init_snd_tool env100 startup

/-- The events of one dispatch (lines 92-114), in program order. -/
def dispatch_events (env : Env) (which : Int) (s : State) : List Event :=
  [fetch s (c_abs which)] ++
  (match sndhandle env s (c_abs which) with
    | some buf =>
      Event.play (next_channel s.channel) buf ::
        (if 0 < forced which then [Event.wait (next_channel s.channel)] else [])
    | none => []) ++
  (if forced which < 0 then [Event.sleep (delay_at s.sound_delay (-1 * forced which)).1] else [])

/-- The state `t` comes after `s`: both logs have grown, the cursor has advanced once
(modulo 4) for every dispatch, every channel index used was in range, `snd_played` was
written inside its bounds only, and at most one playback was started per dispatch. -/
def Advances (s t : State) : Prop :=
  ∃ ds es, t.dispatched = s.dispatched ++ ds ∧ t.trace = s.trace ++ es ∧
    t.channel = (s.channel + ds.length) % 4 ∧
    (∀ ch buf, Event.play ch buf ∈ es → 0 ≤ ch ∧ ch < 4) ∧
    (∀ ch, Event.wait ch ∈ es → 0 ≤ ch ∧ ch < 4) ∧
    (∀ i, i < 0 ∨ 4 ≤ i → t.snd_played i = s.snd_played i) ∧
    (plays es).length ≤ ds.length

/-- An environment with `NUM_SOUNDS = 100` whose loader finds a resource for every
number, also for those outside the catalog. -/
def env_all : Env :=
  { NUM_SOUNDS := 100
    get := fun n => some ⟨n⟩ }

/-- An environment with `NUM_SOUNDS = 100` whose loader finds no resource at all. -/
def env_silent : Env :=
  { NUM_SOUNDS := 100
    get := fun _ => none }

/-- The catalog holds buffers at indices of `load_on_init` other than 0 only. -/
def preload_only (s : State) : Prop :=
  ∀ i, s.sound_handles i ≠ none → i ∈ load_on_init ∧ i ≠ 0

/-! ## Arithmetic of the helpers -/

theorem c_abs_nonneg (x : Int) : 0 ≤ c_abs x := by
  unfold c_abs
  split <;> omega

theorem c_abs_neg (x : Int) : c_abs (-x) = c_abs x := by
  unfold c_abs
  split <;> split <;> omega

theorem c_abs_of_nonneg {x : Int} (h : 0 ≤ x) : c_abs x = x := by
  unfold c_abs
  split <;> omega

theorem always_async_pos {w : Int} (h : w ∈ always_async) : 0 < w := by
  simp only [always_async, List.mem_cons, List.mem_singleton, List.not_mem_nil, or_false] at h
  omega

theorem forced_of_mem {w : Int} (h : w ∈ always_async) : forced w = -w := by
  have hp := always_async_pos h
  simp only [forced, hp, h, and_self, if_true]
  omega

theorem forced_of_not_mem {w : Int} (h : w ∉ always_async) : forced w = w := by
  simp [forced, h]

theorem forced_of_nonpos {w : Int} (h : w ≤ 0) : forced w = w := by
  have : ¬ 0 < w := by omega
  simp [forced, this]

theorem forced_neg_of_mem {w : Int} (h : w ∈ always_async) : forced (-w) = -w := by
  have hp := always_async_pos h
  exact forced_of_nonpos (by omega)

theorem c_abs_forced (w : Int) : c_abs (forced w) = c_abs w := by
  unfold forced
  split
  · rw [show w * -1 = -w by omega, c_abs_neg]
  · rfl

theorem forced_forced (w : Int) : forced (forced w) = forced w := by
  by_cases h : 0 < w ∧ w ∈ always_async
  · rw [forced_of_mem h.2]
    exact forced_of_nonpos (by omega)
  · have : forced w = w := by simp [forced, h]
    rw [this, this]

theorem next_channel_of_range {c : Int} (h0 : 0 ≤ c) (h4 : c < 4) :
    next_channel c = (c + 1) % 4 := by
  simp only [next_channel, to_char, numchannel]
  split <;> omega

theorem next_channel_range {c : Int} (h0 : 0 ≤ c) (h4 : c < 4) :
    0 ≤ next_channel c ∧ next_channel c < 4 := by
  rw [next_channel_of_range h0 h4]
  omega

/-! ## One dispatch, field by field -/

theorem dispatch_fst (env : Env) (which : Int) (s : State) :
    (dispatch env which s).1 = forced which := rfl

theorem dispatch_channel (env : Env) (which : Int) (s : State) :
    (dispatch env which s).2.channel = next_channel s.channel := by
  simp only [dispatch, State.emit]
  split <;> split <;> try split
  all_goals rfl

theorem dispatch_dispatched (env : Env) (which : Int) (s : State) :
    (dispatch env which s).2.dispatched = s.dispatched ++ [c_abs which] := by
  simp only [dispatch, State.emit]
  split <;> split <;> try split
  all_goals rfl

theorem dispatch_trace (env : Env) (which : Int) (s : State) :
    (dispatch env which s).2.trace = s.trace ++ dispatch_events env which s := by
  simp only [dispatch, dispatch_events, State.emit]
  split <;> split <;> try split
  all_goals simp_all

theorem dispatch_play_sounds (env : Env) (which : Int) (s : State) :
    (dispatch env which s).2.play_sounds = s.play_sounds := by
  simp only [dispatch, State.emit]
  split <;> split <;> try split
  all_goals rfl

theorem dispatch_last_played (env : Env) (which : Int) (s : State) :
    (dispatch env which s).2.last_played = s.last_played := by
  simp only [dispatch, State.emit]
  split <;> split <;> try split
  all_goals rfl

theorem dispatch_inited (env : Env) (which : Int) (s : State) :
    (dispatch env which s).2.inited = s.inited := by
  simp only [dispatch, State.emit]
  split <;> split <;> try split
  all_goals rfl

theorem dispatch_sound_handles (env : Env) (which : Int) (s : State) :
    (dispatch env which s).2.sound_handles = s.sound_handles := by
  simp only [dispatch, State.emit]
  split <;> split <;> try split
  all_goals rfl

theorem dispatch_snd_played (env : Env) (which : Int) (s : State) :
    (dispatch env which s).2.snd_played =
      match sndhandle env s (c_abs which) with
      | some _ => store s.snd_played (next_channel s.channel) (c_abs which)
      | none => s.snd_played := by
  simp only [dispatch, State.emit, c_abs_forced]
  split <;> split <;> try split
  all_goals simp_all

/-- A dispatch of an id of the always-async set is the dispatch of its negation. -/
theorem dispatch_of_mem (env : Env) {which : Int} (h : which ∈ always_async) (s : State) :
    dispatch env which s = dispatch env (-which) s := by
  simp only [dispatch, c_abs_neg, forced_of_mem h, forced_neg_of_mem h]

/-! ## The prologue of `play_sound` -/

theorem register_play_sounds (s : State) : (register s).play_sounds = s.play_sounds := by
  unfold register
  split <;> rfl

theorem register_channel (s : State) : (register s).channel = s.channel := by
  unfold register
  split <;> rfl

theorem register_dispatched (s : State) : (register s).dispatched = s.dispatched := by
  unfold register
  split <;> rfl

theorem register_snd_played (s : State) : (register s).snd_played = s.snd_played := by
  unfold register
  split <;> rfl

theorem register_sound_handles (s : State) : (register s).sound_handles = s.sound_handles := by
  unfold register
  split <;> rfl

theorem register_last_played (s : State) : (register s).last_played = s.last_played := by
  unfold register
  split <;> rfl

theorem register_sound_delay (s : State) : (register s).sound_delay = s.sound_delay := by
  unfold register
  split <;> rfl

theorem register_inited (s : State) : (register s).inited = true := by
  unfold register
  split <;> simp_all

theorem register_trace (s : State) :
    (register s).trace = s.trace ++ (if s.inited then [] else [Event.setIdMapFn]) := by
  unfold register
  split <;> simp_all

theorem register_of_inited {s : State} (h : s.inited = true) : register s = s := by
  simp [register, h]

theorem register_register (s : State) : register (register s) = register s :=
  register_of_inited (register_inited s)

theorem on_demand_register (s : State) (n : Int) : on_demand (register s) n = on_demand s n := by
  simp only [on_demand, register_snd_played]

theorem sndhandle_register (env : Env) (s : State) (n : Int) :
    sndhandle env (register s) n = sndhandle env s n := by
  simp only [sndhandle, on_demand_register, register_sound_handles]

theorem fetch_register (s : State) (n : Int) : fetch (register s) n = fetch s n := by
  simp only [fetch, on_demand_register]

/-! ## The recursion of `play_sound` -/

/-- The function `play_sound` satisfies the recursion of the source: the bound on the
depth never cuts it short. -/
theorem play_sound_eq (env : Env) (which how_many_times : Int) (s : State) :
    play_sound env which how_many_times s =
      if (register s).play_sounds = false ∨ how_many_times = 0 then register s
      else if c_abs which > env.NUM_SOUNDS then (register s).emit [Event.printf (c_abs which)]
      else if how_many_times > 1 then
        play_sound env (dispatch env which (register s)).1 (how_many_times - 1)
          (dispatch env which (register s)).2
      else (dispatch env which (register s)).2 := by
  unfold play_sound
  rw [play_sound_fuel]
  by_cases h1 : how_many_times > 1
  · have e : (how_many_times - 1).toNat = (how_many_times - 1 - 1).toNat + 1 := by omega
    simp only [h1, if_true]
    rw [← e]
  · simp only [h1, if_false]

theorem play_sound_off (env : Env) (which how_many_times : Int) (s : State)
    (h : s.play_sounds = false) : play_sound env which how_many_times s = register s := by
  rw [play_sound_eq]
  simp [register_play_sounds, h]

theorem play_sound_zero (env : Env) (which : Int) (s : State) :
    play_sound env which 0 s = register s := by
  rw [play_sound_eq]
  simp

theorem play_sound_out_of_range (env : Env) (which how_many_times : Int) (s : State)
    (hon : s.play_sounds = true) (hn : how_many_times ≠ 0) (hr : c_abs which > env.NUM_SOUNDS) :
    play_sound env which how_many_times s = (register s).emit [Event.printf (c_abs which)] := by
  rw [play_sound_eq]
  simp [register_play_sounds, hon, hn, hr]

theorem play_sound_once (env : Env) (which how_many_times : Int) (s : State)
    (hon : s.play_sounds = true) (hn : how_many_times ≠ 0) (h1 : how_many_times ≤ 1)
    (hr : c_abs which ≤ env.NUM_SOUNDS) :
    play_sound env which how_many_times s = (dispatch env which (register s)).2 := by
  rw [play_sound_eq]
  have h2 : ¬ c_abs which > env.NUM_SOUNDS := by omega
  have h3 : ¬ how_many_times > 1 := by omega
  simp [register_play_sounds, hon, hn, h2, h3]

theorem play_sound_more (env : Env) (which how_many_times : Int) (s : State)
    (hon : s.play_sounds = true) (h1 : 1 < how_many_times)
    (hr : c_abs which ≤ env.NUM_SOUNDS) :
    play_sound env which how_many_times s =
      play_sound env (forced which) (how_many_times - 1) (dispatch env which (register s)).2 := by
  rw [play_sound_eq]
  have h2 : ¬ c_abs which > env.NUM_SOUNDS := by omega
  have h3 : how_many_times ≠ 0 := by omega
  simp [register_play_sounds, hon, h2, h3, h1, dispatch_fst]

/-- Induction along the recursion of `play_sound`: a relation between the arguments,
the state before and the state after that holds on the three exits without recursion
and is carried back through the recursive call holds of every call. -/
theorem play_sound_induction (env : Env) (M : Int → Int → State → State → Prop)
    (h_ret : ∀ which n s, s.play_sounds = false ∨ n = 0 → M which n s (register s))
    (h_err : ∀ which n s, s.play_sounds = true → n ≠ 0 → c_abs which > env.NUM_SOUNDS →
      M which n s ((register s).emit [Event.printf (c_abs which)]))
    (h_one : ∀ which n s, s.play_sounds = true → n ≠ 0 → n ≤ 1 →
      c_abs which ≤ env.NUM_SOUNDS → M which n s (dispatch env which (register s)).2)
    (h_more : ∀ which n s t, s.play_sounds = true → 1 < n → c_abs which ≤ env.NUM_SOUNDS →
      M (forced which) (n - 1) (dispatch env which (register s)).2 t → M which n s t)
    (which n : Int) (s : State) : M which n s (play_sound env which n s) := by
  generalize hk : (n - 1).toNat = k
  induction k generalizing which n s with
  | zero =>
    by_cases hon : s.play_sounds = true
    · by_cases hn : n = 0
      · rw [hn, play_sound_zero]
        exact h_ret which 0 s (Or.inr rfl)
      · by_cases hr : c_abs which > env.NUM_SOUNDS
        · rw [play_sound_out_of_range env which n s hon hn hr]
          exact h_err which n s hon hn hr
        · rw [play_sound_once env which n s hon hn (by omega) (by omega)]
          exact h_one which n s hon hn (by omega) (by omega)
    · have hoff : s.play_sounds = false := by simpa using hon
      rw [play_sound_off env which n s hoff]
      exact h_ret which n s (Or.inl hoff)
  | succ k ih =>
    have h1 : 1 < n := by omega
    by_cases hon : s.play_sounds = true
    · by_cases hr : c_abs which > env.NUM_SOUNDS
      · rw [play_sound_out_of_range env which n s hon (by omega) hr]
        exact h_err which n s hon (by omega) hr
      · rw [play_sound_more env which n s hon h1 (by omega)]
        exact h_more which n s _ hon h1 (by omega) (ih (forced which) (n - 1) _ (by omega))
    · have hoff : s.play_sounds = false := by simpa using hon
      rw [play_sound_off env which n s hoff]
      exact h_ret which n s (Or.inl hoff)

/-! ## The cursor and the logs along a run -/

theorem plays_append (a b : List Event) : plays (a ++ b) = plays a ++ plays b := by
  simp [plays, List.filter_append]

theorem mem_dispatch_events (env : Env) (which : Int) (s : State) (e : Event)
    (h : e ∈ dispatch_events env which s) :
    e = fetch s (c_abs which) ∨
    (∃ buf, sndhandle env s (c_abs which) = some buf ∧ e = Event.play (next_channel s.channel) buf) ∨
    (0 < forced which ∧ e = Event.wait (next_channel s.channel)) ∨
    (forced which < 0 ∧ e = Event.sleep (delay_at s.sound_delay (-1 * forced which)).1) := by
  by_cases h1 : 0 < forced which <;> by_cases h2 : forced which < 0 <;>
    cases hh : sndhandle env s (c_abs which) <;>
    simp only [dispatch_events, hh, h1, h2, if_true, if_false, List.mem_append, List.mem_cons,
      List.mem_singleton, List.not_mem_nil, or_false, false_or, true_and, false_and,
      Option.some.injEq, exists_eq_left', false_and, exists_false] at h ⊢ <;>
    tauto

theorem plays_dispatch_events (env : Env) (which : Int) (s : State) :
    (plays (dispatch_events env which s)).length ≤ 1 := by
  by_cases h1 : 0 < forced which <;> by_cases h2 : forced which < 0 <;>
    by_cases h3 : on_demand s (c_abs which) = true <;>
    cases hh : sndhandle env s (c_abs which) <;>
    simp [dispatch_events, fetch, hh, h1, h2, h3, plays]

theorem Advances.refl {s : State} (h0 : 0 ≤ s.channel) (h4 : s.channel < 4) : Advances s s := by
  refine ⟨[], [], by simp, by simp, ?_, by simp, by simp, by simp, by simp [plays]⟩
  simp only [List.length_nil, Nat.cast_zero, add_zero]
  omega

theorem Advances.range {s t : State} (h : Advances s t) : 0 ≤ t.channel ∧ t.channel < 4 := by
  obtain ⟨ds, es, -, -, hc, -⟩ := h
  omega

theorem Advances.trans {s t u : State} (h1 : Advances s t) (h2 : Advances t u) :
    Advances s u := by
  obtain ⟨ds1, es1, hd1, ht1, hc1, hp1, hw1, hs1, hl1⟩ := h1
  obtain ⟨ds2, es2, hd2, ht2, hc2, hp2, hw2, hs2, hl2⟩ := h2
  refine ⟨ds1 ++ ds2, es1 ++ es2, ?_, ?_, ?_, ?_, ?_, ?_, ?_⟩
  · rw [hd2, hd1, List.append_assoc]
  · rw [ht2, ht1, List.append_assoc]
  · rw [hc2, hc1]
    simp only [List.length_append, Nat.cast_add]
    omega
  · intro ch buf hm
    rcases List.mem_append.mp hm with hm | hm
    · exact hp1 ch buf hm
    · exact hp2 ch buf hm
  · intro ch hm
    rcases List.mem_append.mp hm with hm | hm
    · exact hw1 ch hm
    · exact hw2 ch hm
  · intro i hi
    rw [hs2 i hi, hs1 i hi]
  · rw [plays_append]
    simp only [List.length_append]
    omega

/-- A state transformer that touches neither the cursor, nor `snd_played`, nor the log of
dispatches, and that starts no playback and waits on no channel. -/
theorem Advances.of_frame {s t : State} (h0 : 0 ≤ s.channel) (h4 : s.channel < 4)
    (hc : t.channel = s.channel) (hd : t.dispatched = s.dispatched)
    (hs : t.snd_played = s.snd_played) (es : List Event) (ht : t.trace = s.trace ++ es)
    (hp : ∀ ch buf, Event.play ch buf ∉ es) (hw : ∀ ch, Event.wait ch ∉ es) :
    Advances s t := by
  refine ⟨[], es, by simp [hd], ht, ?_, ?_, ?_, ?_, ?_⟩
  · simp only [List.length_nil, Nat.cast_zero, add_zero, hc]
    omega
  · intro ch buf hm
    exact absurd hm (hp ch buf)
  · intro ch hm
    exact absurd hm (hw ch)
  · intro i _
    rw [hs]
  · have : plays es = [] := by
      simp only [plays, List.filter_eq_nil_iff]
      intro e he
      cases e <;> simp
      exact absurd he (hp _ _)
    simp [this]

theorem advances_register {s : State} (h0 : 0 ≤ s.channel) (h4 : s.channel < 4) :
    Advances s (register s) := by
  refine Advances.of_frame h0 h4 (register_channel s) (register_dispatched s)
    (register_snd_played s) _ (register_trace s) ?_ ?_
  · intro ch buf
    split <;> simp
  · intro ch
    split <;> simp

theorem advances_printf {s : State} (h0 : 0 ≤ s.channel) (h4 : s.channel < 4) (n : Int) :
    Advances s (s.emit [Event.printf n]) :=
  Advances.of_frame h0 h4 rfl rfl rfl [Event.printf n] rfl (by simp) (by simp)

theorem advances_dispatch (env : Env) (which : Int) {s : State}
    (h0 : 0 ≤ s.channel) (h4 : s.channel < 4) : Advances s (dispatch env which s).2 := by
  have hr := next_channel_range h0 h4
  refine ⟨[c_abs which], dispatch_events env which s, dispatch_dispatched env which s,
    dispatch_trace env which s, ?_, ?_, ?_, ?_, ?_⟩
  · rw [dispatch_channel, next_channel_of_range h0 h4]
    simp
  · intro ch buf hm
    rcases mem_dispatch_events env which s _ hm with h | ⟨b, -, h⟩ | ⟨-, h⟩ | ⟨-, h⟩
    · unfold fetch at h
      split at h <;> simp at h
    · simp only [Event.play.injEq] at h
      rw [h.1]
      exact hr
    · simp at h
    · simp at h
  · intro ch hm
    rcases mem_dispatch_events env which s _ hm with h | ⟨b, -, h⟩ | ⟨-, h⟩ | ⟨-, h⟩
    · unfold fetch at h
      split at h <;> simp at h
    · simp at h
    · simp only [Event.wait.injEq] at h
      rw [h]
      exact hr
    · simp at h
  · intro i hi
    rw [dispatch_snd_played]
    split
    · have : i ≠ next_channel s.channel := by omega
      simp [store, this]
    · rfl
  · simpa using plays_dispatch_events env which s

theorem advances_play_sound (env : Env) (which n : Int) {s : State}
    (h0 : 0 ≤ s.channel) (h4 : s.channel < 4) : Advances s (play_sound env which n s) := by
  have key := play_sound_induction env
    (fun _ _ s t => 0 ≤ s.channel ∧ s.channel < 4 → Advances s t)
    (fun _ _ s _ h => advances_register h.1 h.2)
    (fun _ _ s _ _ _ h => (advances_register h.1 h.2).trans
      (advances_printf (advances_register h.1 h.2).range.1 (advances_register h.1 h.2).range.2 _))
    (fun which _ s _ _ _ _ h => (advances_register h.1 h.2).trans
      (advances_dispatch env which (advances_register h.1 h.2).range.1
        (advances_register h.1 h.2).range.2))
    (fun which _ s t _ _ _ ih h =>
      have a := (advances_register h.1 h.2).trans
        (advances_dispatch env which (advances_register h.1 h.2).range.1
          (advances_register h.1 h.2).range.2)
      a.trans (ih a.range))
    which n s
  exact key ⟨h0, h4⟩

theorem init_load_frame (env : Env) (s : State) (i : Int) :
    (init_load env s i).channel = s.channel ∧
    (init_load env s i).dispatched = s.dispatched ∧
    (init_load env s i).snd_played = s.snd_played ∧
    (init_load env s i).play_sounds = s.play_sounds ∧
    (init_load env s i).last_played = s.last_played ∧
    (init_load env s i).trace = s.trace ++ (if i = 0 then [] else [Event.get i]) := by
  unfold init_load
  split <;> simp

theorem init_fold_frame (env : Env) (l : List Int) (s : State) :
    (l.foldl (init_load env) s).channel = s.channel ∧
    (l.foldl (init_load env) s).dispatched = s.dispatched ∧
    (l.foldl (init_load env) s).snd_played = s.snd_played ∧
    (l.foldl (init_load env) s).play_sounds = s.play_sounds ∧
    (l.foldl (init_load env) s).last_played = s.last_played ∧
    ∃ es, (l.foldl (init_load env) s).trace = s.trace ++ es ∧ ∀ e ∈ es, ∃ i, e = Event.get i := by
  induction l generalizing s with
  | nil => exact ⟨rfl, rfl, rfl, rfl, rfl, [], by simp, by simp⟩
  | cons i l ih =>
    obtain ⟨h1, h2, h3, h4, h5, es, h6, h7⟩ := ih (init_load env s i)
    obtain ⟨g1, g2, g3, g4, g5, g6⟩ := init_load_frame env s i
    simp only [List.foldl_cons]
    refine ⟨h1.trans g1, h2.trans g2, h3.trans g3, h4.trans g4, h5.trans g5,
      (if i = 0 then [] else [Event.get i]) ++ es, ?_, ?_⟩
    · rw [h6, g6, List.append_assoc]
    · intro e he
      rcases List.mem_append.mp he with he | he
      · split at he
        · simp at he
        · exact ⟨i, by simpa using he⟩
      · exact h7 e he

theorem advances_init_snd_tool (env : Env) {s : State}
    (h0 : 0 ≤ s.channel) (h4 : s.channel < 4) : Advances s (init_snd_tool env s) := by
  obtain ⟨h1, h2, h3, -, -, es, h6, h7⟩ :=
    init_fold_frame env load_on_init (s.emit [Event.setIdMapFn])
  refine Advances.of_frame h0 h4 h1 h2 h3 (Event.setIdMapFn :: es) ?_ ?_ ?_
  · unfold init_snd_tool
    rw [h6]
    simp [State.emit]
  · intro ch buf hm
    rcases List.mem_cons.mp hm with hm | hm
    · simp at hm
    · obtain ⟨i, hi⟩ := h7 _ hm
      simp at hi
  · intro ch hm
    rcases List.mem_cons.mp hm with hm | hm
    · simp at hm
    · obtain ⟨i, hi⟩ := h7 _ hm
      simp at hi

theorem advances_one_sound (env : Env) (which : Int) {s : State}
    (h0 : 0 ≤ s.channel) (h4 : s.channel < 4) : Advances s (one_sound env which s) := by
  unfold one_sound
  split
  · exact Advances.refl h0 h4
  · obtain ⟨ds, es, a1, a2, a3, a4, a5, a6, a7⟩ :=
      advances_play_sound env which default_how_many_times h0 h4
    exact ⟨ds, es, a1, a2, a3, a4, a5, a6, a7⟩

theorem advances_step (env : Env) (op : Op) {s : State}
    (h0 : 0 ≤ s.channel) (h4 : s.channel < 4) : Advances s (step env s op) := by
  cases op with
  | init_snd_tool => exact advances_init_snd_tool env h0 h4
  | play_sound which n => exact advances_play_sound env which n h0 h4
  | one_sound which => exact advances_one_sound env which h0 h4
  | clear_sound_memory =>
    exact Advances.of_frame h0 h4 rfl rfl rfl [] (by simp [step, clear_sound_memory])
      (by simp) (by simp)
  | flip_sound =>
    exact Advances.of_frame h0 h4 rfl rfl rfl [] (by simp [step, flip_sound])
      (by simp) (by simp)

theorem advances_run (env : Env) (ops : List Op) {s : State}
    (h0 : 0 ≤ s.channel) (h4 : s.channel < 4) : Advances s (run env ops s) := by
  induction ops generalizing s with
  | nil => exact Advances.refl h0 h4
  | cons op ops ih =>
    have a := advances_step env op h0 h4
    exact a.trans (ih a.range.1 a.range.2)

/-! ## What the recursion preserves -/

theorem play_sound_play_sounds (env : Env) (which n : Int) (s : State) :
    (play_sound env which n s).play_sounds = s.play_sounds :=
  play_sound_induction env (fun _ _ s t => t.play_sounds = s.play_sounds)
    (fun _ _ s _ => register_play_sounds s)
    (fun _ _ s _ _ _ => register_play_sounds s)
    (fun which _ s _ _ _ _ => by beta_reduce; rw [dispatch_play_sounds, register_play_sounds])
    (fun which _ s t _ _ _ ih => by
      beta_reduce at ih ⊢
      rw [ih, dispatch_play_sounds, register_play_sounds])
    which n s

theorem play_sound_last_played (env : Env) (which n : Int) (s : State) :
    (play_sound env which n s).last_played = s.last_played :=
  play_sound_induction env (fun _ _ s t => t.last_played = s.last_played)
    (fun _ _ s _ => register_last_played s)
    (fun _ _ s _ _ _ => register_last_played s)
    (fun which _ s _ _ _ _ => by beta_reduce; rw [dispatch_last_played, register_last_played])
    (fun which _ s t _ _ _ ih => by
      beta_reduce at ih ⊢
      rw [ih, dispatch_last_played, register_last_played])
    which n s

theorem play_sound_sound_handles (env : Env) (which n : Int) (s : State) :
    (play_sound env which n s).sound_handles = s.sound_handles :=
  play_sound_induction env (fun _ _ s t => t.sound_handles = s.sound_handles)
    (fun _ _ s _ => register_sound_handles s)
    (fun _ _ s _ _ _ => register_sound_handles s)
    (fun which _ s _ _ _ _ => by beta_reduce; rw [dispatch_sound_handles, register_sound_handles])
    (fun which _ s t _ _ _ ih => by
      beta_reduce at ih ⊢
      rw [ih, dispatch_sound_handles, register_sound_handles])
    which n s

/-- A call with a positive repeat count that passes the checks logs that many dispatches
of the magnitude of the id. -/
theorem play_sound_dispatched (env : Env) (which n : Int) (s : State)
    (hon : s.play_sounds = true) (hr : c_abs which ≤ env.NUM_SOUNDS) (hn : 0 < n) :
    (play_sound env which n s).dispatched =
      s.dispatched ++ List.replicate n.toNat (c_abs which) := by
  have key := play_sound_induction env
    (fun which n s t => s.play_sounds = true → c_abs which ≤ env.NUM_SOUNDS → 0 < n →
      t.dispatched = s.dispatched ++ List.replicate n.toNat (c_abs which))
    (fun _ n s h hon _ hn => by
      rcases h with h | h
      · rw [h] at hon
        exact absurd hon (by simp)
      · omega)
    (fun _ _ _ _ _ h _ hr _ => by omega)
    (fun which n s _ _ h1 _ _ _ hn => by
      have e : n.toNat = 1 := by omega
      rw [dispatch_dispatched, register_dispatched, e]
      rfl)
    (fun which n s t _ h1 _ ih hon hr hn => by
      have e : n.toNat = (n - 1).toNat + 1 := by omega
      rw [ih (by rw [dispatch_play_sounds, register_play_sounds]; exact hon)
        (by rw [c_abs_forced]; exact hr) (by omega),
        dispatch_dispatched, register_dispatched, c_abs_forced, e, List.replicate_succ]
      simp)
    which n s
  exact key hon hr hn

/-- A call whose id is not positive never enters the wait loop. -/
theorem play_sound_no_wait (env : Env) (which n : Int) (s : State) (hw : which ≤ 0) :
    ∃ es, (play_sound env which n s).trace = s.trace ++ es ∧ ∀ ch, Event.wait ch ∉ es := by
  have hreg : ∀ s : State, ∃ es, (register s).trace = s.trace ++ es ∧
      ∀ ch, Event.wait ch ∉ es := by
    intro s
    refine ⟨_, register_trace s, ?_⟩
    intro ch
    split <;> simp
  have hdis : ∀ (which : Int) (s : State), which ≤ 0 →
      ∃ es, (dispatch env which (register s)).2.trace = s.trace ++ es ∧
        ∀ ch, Event.wait ch ∉ es := by
    intro which s hw
    obtain ⟨es, h1, h2⟩ := hreg s
    refine ⟨es ++ dispatch_events env which (register s), ?_, ?_⟩
    · rw [dispatch_trace, h1, List.append_assoc]
    · intro ch hm
      rcases List.mem_append.mp hm with hm | hm
      · exact h2 ch hm
      · have hf := forced_of_nonpos hw
        rcases mem_dispatch_events env which _ _ hm with h | ⟨b, -, h⟩ | ⟨hp, -⟩ | ⟨-, h⟩
        · unfold fetch at h
          split at h <;> simp at h
        · simp at h
        · omega
        · simp at h
  have key := play_sound_induction env
    (fun which _ s t => which ≤ 0 →
      ∃ es, t.trace = s.trace ++ es ∧ ∀ ch, Event.wait ch ∉ es)
    (fun _ _ s _ _ => hreg s)
    (fun which _ s _ _ _ _ => by
      obtain ⟨es, h1, h2⟩ := hreg s
      refine ⟨es ++ [Event.printf (c_abs which)], ?_, ?_⟩
      · simp [State.emit, h1]
      · intro ch hm
        rcases List.mem_append.mp hm with hm | hm
        · exact h2 ch hm
        · simp at hm)
    (fun which _ s _ _ _ _ hw => hdis which s hw)
    (fun which _ s t _ _ _ ih hw => by
      obtain ⟨es1, h1, h2⟩ := hdis which s hw
      obtain ⟨es2, h3, h4⟩ := ih (by rw [forced_of_nonpos hw]; exact hw)
      refine ⟨es1 ++ es2, ?_, ?_⟩
      · rw [h3, h1, List.append_assoc]
      · intro ch hm
        rcases List.mem_append.mp hm with hm | hm
        · exact h2 ch hm
        · exact h4 ch hm)
    which n s
  exact key hw

/-! ## The playbacks of a call -/

theorem plays_register (s : State) : plays (register s).trace = plays s.trace := by
  rw [register_trace, plays_append]
  split <;> simp [plays]

/-- One dispatch starts exactly one playback, of the buffer it resolved on the new cursor
position, when that buffer is non-null, and none when it is null. -/
theorem plays_dispatch (env : Env) (which : Int) (s : State) :
    plays (dispatch env which s).2.trace = plays s.trace ++
      (match sndhandle env s (c_abs which) with
        | some b => [Event.play (next_channel s.channel) b]
        | none => []) := by
  rw [dispatch_trace, plays_append]
  congr 1
  by_cases h1 : 0 < forced which <;> by_cases h2 : forced which < 0 <;>
    by_cases h3 : on_demand s (c_abs which) = true <;>
    cases hh : sndhandle env s (c_abs which) <;>
    simp [dispatch_events, fetch, hh, h1, h2, h3, plays]

theorem sndhandle_congr (env : Env) {s t : State} (n : Int)
    (h1 : t.snd_played = s.snd_played) (h2 : t.sound_handles = s.sound_handles) :
    sndhandle env t n = sndhandle env s n := by
  simp only [sndhandle, on_demand, h1, h2]

theorem sound_going_store {sp : Int → Int} {n : Int} (c : Int)
    (h : sound_going sp n = true) : sound_going (store sp c n) n = true := by
  simp only [sound_going, List.any_cons, List.any_nil, Bool.or_false, Bool.or_eq_true,
    beq_iff_eq, store] at h ⊢
  rcases h with h | h | h | h
  · left
    split <;> simp [h]
  · right; left
    split <;> simp [h]
  · right; right; left
    split <;> simp [h]
  · right; right; right
    split <;> simp [h]

theorem sound_going_recorded (sp : Int → Int) (n : Int) {c : Int} (h0 : 0 ≤ c) (h4 : c < 4) :
    sound_going (store sp c n) n = true := by
  have hc : c = 0 ∨ c = 1 ∨ c = 2 ∨ c = 3 := by omega
  rcases hc with hc | hc | hc | hc <;> simp [sound_going, store, hc]

/-- A sound that is taken from the catalog is taken from the catalog at the next dispatch
of the same sound too. -/
theorem on_demand_dispatch (env : Env) (which : Int) {s : State}
    (h : on_demand s (c_abs which) = false) :
    on_demand (dispatch env which s).2 (c_abs which) = false := by
  simp only [on_demand, Bool.and_eq_false_imp, Bool.not_eq_true', Bool.not_eq_false',
    Bool.not_eq_eq_eq_not, Bool.not_true, Bool.not_false] at h ⊢
  intro hg
  apply h
  rw [dispatch_snd_played] at hg
  by_contra hc
  have hgo : sound_going s.snd_played (c_abs which) = true := by simpa using hc
  split at hg
  · rw [sound_going_store _ hgo] at hg
    exact absurd hg (by simp)
  · rw [hgo] at hg
    exact absurd hg (by simp)

/-- While the buffer of the sound is null, no dispatch of a call starts a playback. -/
theorem plays_play_sound_null (env : Env) (which n : Int) (s : State)
    (hnull : sndhandle env s (c_abs which) = none) :
    plays (play_sound env which n s).trace = plays s.trace := by
  have hdis : ∀ (which : Int) (s : State), sndhandle env s (c_abs which) = none →
      plays (dispatch env which (register s)).2.trace = plays s.trace := by
    intro which s h
    rw [plays_dispatch, sndhandle_register, h, plays_register]
    simp
  have key := play_sound_induction env
    (fun which _ s t => sndhandle env s (c_abs which) = none → plays t.trace = plays s.trace)
    (fun _ _ s _ _ => plays_register s)
    (fun which _ s _ _ _ _ => by
      show plays ((register s).trace ++ [Event.printf (c_abs which)]) = plays s.trace
      rw [plays_append, plays_register]
      simp [plays])
    (fun which _ s _ _ _ _ h => hdis which s h)
    (fun which _ s t _ _ _ ih h => by
      have hsp : (dispatch env which (register s)).2.snd_played = s.snd_played := by
        rw [dispatch_snd_played, sndhandle_register, h, register_snd_played]
      have hsh : (dispatch env which (register s)).2.sound_handles = s.sound_handles := by
        rw [dispatch_sound_handles, register_sound_handles]
      have h2 : sndhandle env (dispatch env which (register s)).2 (c_abs (forced which)) =
          none := by
        rw [c_abs_forced, sndhandle_congr env _ hsp hsh]
        exact h
      rw [ih h2]
      exact hdis which s h)
    which n s
  exact key hnull

/-- While the sound is taken from a non-null catalog entry, every dispatch of a call
starts a playback of that entry, each on the next channel. -/
theorem plays_play_sound_cached (env : Env) (b : SoundBuffer) (which n : Int) (s : State)
    (hon : s.play_sounds = true) (hr : c_abs which ≤ env.NUM_SOUNDS)
    (h0 : 0 ≤ s.channel) (h4 : s.channel < 4)
    (hd : on_demand s (c_abs which) = false) (hb : s.sound_handles (c_abs which) = some b)
    (hn : 0 < n) :
    plays (play_sound env which n s).trace = plays s.trace ++
      (List.range n.toNat).map fun i : Nat => Event.play ((s.channel + 1 + i) % 4) b := by
  have hdis : ∀ (which : Int) (s : State), 0 ≤ s.channel → s.channel < 4 →
      on_demand s (c_abs which) = false → s.sound_handles (c_abs which) = some b →
      plays (dispatch env which (register s)).2.trace =
        plays s.trace ++ [Event.play ((s.channel + 1) % 4) b] := by
    intro which s h0 h4 hd hb
    have hs : sndhandle env s (c_abs which) = some b := by simp [sndhandle, hd, hb]
    rw [plays_dispatch, sndhandle_register, hs, plays_register, register_channel,
      next_channel_of_range h0 h4]
  have key := play_sound_induction env
    (fun which n s t => s.play_sounds = true → c_abs which ≤ env.NUM_SOUNDS →
      0 ≤ s.channel → s.channel < 4 → on_demand s (c_abs which) = false →
      s.sound_handles (c_abs which) = some b → 0 < n →
      plays t.trace = plays s.trace ++
        (List.range n.toNat).map fun i : Nat => Event.play ((s.channel + 1 + i) % 4) b)
    (fun _ n s h hon _ _ _ _ _ hn => by
      rcases h with h | h
      · rw [h] at hon
        exact absurd hon (by simp)
      · omega)
    (fun _ _ _ _ _ h _ hr _ _ _ _ _ => by omega)
    (fun which n s _ _ h1 _ _ _ h0 h4 hd hb hn => by
      have e : n.toNat = 1 := by omega
      rw [hdis which s h0 h4 hd hb, e, show List.range 1 = [0] from rfl]
      simp)
    (fun which n s t _ h1 _ ih hon hr h0 h4 hd hb hn => by
      have e : n.toNat = (n - 1).toNat + 1 := by omega
      have hc : (dispatch env which (register s)).2.channel = (s.channel + 1) % 4 := by
        rw [dispatch_channel, register_channel, next_channel_of_range h0 h4]
      have hd2 : on_demand (dispatch env which (register s)).2 (c_abs (forced which)) =
          false := by
        rw [c_abs_forced]
        exact on_demand_dispatch env which (by rw [on_demand_register]; exact hd)
      have hb2 : (dispatch env which (register s)).2.sound_handles (c_abs (forced which)) =
          some b := by
        rw [c_abs_forced, dispatch_sound_handles, register_sound_handles]
        exact hb
      rw [ih (by rw [dispatch_play_sounds, register_play_sounds]; exact hon)
        (by rw [c_abs_forced]; exact hr) (by rw [hc]; omega) (by rw [hc]; omega) hd2 hb2
        (by omega), hdis which s h0 h4 hd hb, hc, e, List.range_succ_eq_map,
        List.map_cons, List.map_map, List.append_assoc]
      congr 1
      simp only [List.singleton_append, Nat.cast_zero, add_zero, List.cons.injEq, true_and]
      apply List.map_congr_left
      intro i _
      simp only [Function.comp_apply, Nat.cast_succ, Event.play.injEq, and_true]
      omega)
    which n s
  exact key hon hr h0 h4 hd hb hn

/-! ## C1: ids at or beyond the catalog size -/

/-- Whatever the catalog size, an id of magnitude `NUM_SOUNDS` is not rejected by the
check of line 85: the call makes a dispatch and its trace is that of the dispatch. -/
theorem play_sound_at_NUM_SOUNDS (env : Env) (which : Int) (s : State)
    (hon : s.play_sounds = true) (hw : c_abs which = env.NUM_SOUNDS) :
    play_sound env which 1 s = (dispatch env which (register s)).2 ∧
    (play_sound env which 1 s).dispatched = s.dispatched ++ [env.NUM_SOUNDS] ∧
    (play_sound env which 1 s).channel = next_channel s.channel := by
  have hone := play_sound_once env which 1 s hon (by omega) (by omega) (by omega)
  refine ⟨hone, ?_, ?_⟩
  · rw [hone, dispatch_dispatched, register_dispatched, hw]
  · rw [hone, dispatch_channel, register_channel]

/-- An id of magnitude above `NUM_SOUNDS` is rejected: one diagnostic, and nothing else
beyond the registration of the first call. -/
theorem play_sound_above_NUM_SOUNDS (env : Env) (which n : Int) (s : State)
    (hon : s.play_sounds = true) (hn : n ≠ 0) (hw : c_abs which > env.NUM_SOUNDS) :
    (play_sound env which n s).trace = (register s).trace ++ [Event.printf (c_abs which)] ∧
    (play_sound env which n s).channel = s.channel ∧
    (play_sound env which n s).snd_played = s.snd_played ∧
    (play_sound env which n s).dispatched = s.dispatched := by
  rw [play_sound_out_of_range env which n s hon hn hw]
  exact ⟨rfl, register_channel s, register_snd_played s, register_dispatched s⟩

/-- C1 (the code departs from the claim at magnitude `NUM_SOUNDS`): with
`NUM_SOUNDS = 100` the call `play_sound(100, 3)` is not rejected.  No diagnostic is
printed, three dispatches are made, the cursor moves from 0 to 3 and the loader is asked
for sound 100; and when the loader has a resource for 100 the second dispatch of
`play_sound(100, 2)` reads `sound_handles[100]`, one past the end of the catalog. -/
theorem C1_boundary_id_is_dispatched :
    c_abs 100 ≥ env100.NUM_SOUNDS ∧ ready.play_sounds = true ∧
    (play_sound env100 100 3 ready).trace =
      ready.trace ++ [Event.setIdMapFn, Event.get 100, Event.get 100, Event.get 100] ∧
    (play_sound env100 100 3 ready).dispatched = [100, 100, 100] ∧
    ready.channel = 0 ∧ (play_sound env100 100 3 ready).channel = 3 ∧
    (play_sound env_all 100 2 startup).trace =
      [Event.setIdMapFn, Event.get 100, Event.play 1 ⟨100⟩, Event.wait 1, Event.handle 100] ∧
    (play_sound env_all 100 2 startup).snd_played 1 = 100 := by
  decide

/-! ## C2: playback switched off -/

/-- C2: while `play_sounds` is off, `play_sound(which, n)` does nothing but the one-time
registration of the id map of its first call: no playback, diagnostic, wait or delay, and
the cursor, `snd_played`, the catalog, the delay table and `last_played` keep their
values.  `flip_sound` changes the flag only, switches an enabled state off, and a
second call restores the state, in which a call that passes the checks dispatches
again. -/
theorem C2_disabled_play_sound_is_noop (env : Env) (which n : Int) (s : State)
    (hoff : s.play_sounds = false) :
    play_sound env which n s = register s ∧
    (register s).trace = s.trace ++ (if s.inited then [] else [Event.setIdMapFn]) ∧
    (register s).channel = s.channel ∧
    (register s).snd_played = s.snd_played ∧
    (register s).dispatched = s.dispatched ∧
    (register s).sound_handles = s.sound_handles ∧
    (register s).sound_delay = s.sound_delay ∧
    (register s).last_played = s.last_played ∧
    (register s).play_sounds = s.play_sounds ∧
    (∀ t : State, flip_sound t = { t with play_sounds := !t.play_sounds }) ∧
    (∀ t : State, flip_sound (flip_sound t) = t) ∧
    (∀ t : State, t.play_sounds = true →
      play_sound env which n (flip_sound t) = register (flip_sound t)) ∧
    (∀ t : State, t.play_sounds = true → n ≠ 0 → c_abs which ≤ env.NUM_SOUNDS →
      ∃ ds, (play_sound env which n (flip_sound (flip_sound t))).dispatched =
        t.dispatched ++ c_abs which :: ds) := by
  have hflip2 : ∀ t : State, flip_sound (flip_sound t) = t := by
    intro t
    cases t with
    | mk a b c d e f g h i => cases d <;> rfl
  refine ⟨play_sound_off env which n s hoff, register_trace s, register_channel s,
    register_snd_played s, register_dispatched s, register_sound_handles s,
    register_sound_delay s, register_last_played s, register_play_sounds s, ?_, hflip2, ?_, ?_⟩
  · intro t
    cases t with
    | mk a b c d e f g h i => cases d <;> rfl
  · intro t ht
    exact play_sound_off env which n (flip_sound t) (by simp [flip_sound, ht])
  · intro t ht hn hr
    rw [hflip2]
    by_cases h1 : 1 < n
    · refine ⟨List.replicate (n - 1).toNat (c_abs which), ?_⟩
      have e : n.toNat = (n - 1).toNat + 1 := by omega
      rw [play_sound_dispatched env which n t ht hr (by omega), e, List.replicate_succ]
    · refine ⟨[], ?_⟩
      rw [play_sound_once env which n t ht hn (by omega) hr, dispatch_dispatched,
        register_dispatched]

/-- C2, at a concrete input: sound 5 requested once right after `flip_sound` at program
start. -/
theorem C2_disabled_play_sound_is_noop_witness :
    (flip_sound startup).play_sounds = false ∧
    play_sound env100 5 1 (flip_sound startup) = register (flip_sound startup) :=
  ⟨rfl, (C2_disabled_play_sound_is_noop env100 5 1 (flip_sound startup) rfl).1⟩

/-! ## C3: the forced-async override -/

/-- C3: an id of `always_async` requested with positive sign, playback enabled, repeat
count at least 1 and the id within the range check, is dispatched as its negation: line
102 leaves `-which`, the dispatch and the whole call coincide with those of
`play_sound(-which, k)`, the wait loop is never entered, the delay slept is
`sound_delay[-1 * -which]`, and a repeat is the call `play_sound(-which, k - 1)`. -/
theorem C3_always_async_is_flipped (env : Env) (which k : Int) (s : State)
    (hon : s.play_sounds = true) (hmem : which ∈ always_async) (hk : 1 ≤ k)
    (hr : which ≤ env.NUM_SOUNDS) :
    0 < which ∧
    (play_sound env which k s).dispatched = s.dispatched ++ List.replicate k.toNat which ∧
    (dispatch env which (register s)).1 = -which ∧
    dispatch env which (register s) = dispatch env (-which) (register s) ∧
    play_sound env which k s = play_sound env (-which) k s ∧
    (∃ es, (play_sound env which k s).trace = s.trace ++ es ∧ ∀ ch, Event.wait ch ∉ es) ∧
    (∃ es, (dispatch env which (register s)).2.trace = (register s).trace ++ es ++
      [Event.sleep (delay_at (register s).sound_delay (-1 * -which)).1]) ∧
    (k = 1 → play_sound env which k s = (dispatch env which (register s)).2) ∧
    (1 < k → play_sound env which k s =
      play_sound env (-which) (k - 1) (dispatch env which (register s)).2) := by
  have hp := always_async_pos hmem
  have hf := forced_of_mem hmem
  have habs : c_abs which ≤ env.NUM_SOUNDS := by rw [c_abs_of_nonneg (by omega)]; exact hr
  have heq : play_sound env which k s = play_sound env (-which) k s := by
    rw [play_sound_eq env which, play_sound_eq env (-which), c_abs_neg, dispatch_of_mem env hmem]
  refine ⟨hp, ?_, by rw [dispatch_fst, hf], dispatch_of_mem env hmem _, heq, ?_, ?_, ?_, ?_⟩
  · rw [play_sound_dispatched env which k s hon habs (by omega), c_abs_of_nonneg (by omega)]
  · rw [heq]
    exact play_sound_no_wait env (-which) k s (by omega)
  · have hnw : ¬ which < 0 := by omega
    rw [dispatch_trace]
    cases hh : sndhandle env (register s) (c_abs which) with
    | none =>
      refine ⟨[fetch (register s) (c_abs which)], ?_⟩
      simp [dispatch_events, hh, hf, hp]
    | some buf =>
      refine ⟨[fetch (register s) (c_abs which),
        Event.play (next_channel (register s).channel) buf], ?_⟩
      simp [dispatch_events, hh, hf, hp, hnw]
  · intro h1
    exact play_sound_once env which k s hon (by omega) (by omega) habs
  · intro h1
    rw [play_sound_more env which k s hon h1 habs, hf]

/-- C3, at a concrete input: sound 24 requested twice at program start. -/
theorem C3_always_async_is_flipped_witness :
    startup.play_sounds = true ∧ (24 : Int) ∈ always_async ∧ (1 : Int) ≤ 2 ∧
    (24 : Int) ≤ env100.NUM_SOUNDS ∧
    play_sound env100 24 2 startup = play_sound env100 (-24) 2 startup :=
  ⟨rfl, by decide, by decide, by decide,
    (C3_always_async_is_flipped env100 24 2 startup rfl (by decide) (by decide)
      (by decide)).2.2.2.2.1⟩

/-! ## C4: the repeat count -/

/-- C4 is false as stated: in the state after `init_snd_tool`, with a loader that
resolves every id of the catalog, `play_sound(0, 1)` starts no playback (the catalog
entry of sound 0 is never loaded) and `play_sound(2, 2)` starts one, not two. -/
theorem C4_counterexample :
    ready.play_sounds = true ∧
    (∀ n : Int, 0 ≤ n → n < env100.NUM_SOUNDS → env100.get n = some ⟨n⟩) ∧
    plays ready.trace = [] ∧
    plays (play_sound env100 0 1 ready).trace = [] ∧
    plays (play_sound env100 2 2 ready).trace = [Event.play 1 ⟨2⟩] ∧
    (play_sound env100 2 2 ready).dispatched = [2, 2] := by
  refine ⟨rfl, ?_, by decide, by decide, by decide, by decide⟩
  intro n h0 h1
  have h2 : n < 100 := h1
  simp [env100, h0, h2]

/-- C4, amended: with playback enabled, a valid sound id (magnitude below `NUM_SOUNDS`)
and a loader that resolves every valid id, `play_sound(id, 0)` makes no dispatch and
starts no playback, and `play_sound(id, k)` for `k > 0` makes exactly `k` dispatches of
that sound, advancing the cursor `k` times, in a recursion of depth `k`.  The playbacks
started are exactly these: when the sound is taken from the catalog (it is in
`load_on_init` or in `snd_played`), `k` playbacks of the catalog entry on the `k` next
channels when the entry is non-null and none when it is null; when the sound is fetched
on demand, one playback of the loaded buffer on the next channel, followed by none when
the catalog entry is null and by `k - 1` playbacks of the entry when it is not. -/
theorem C4_repeat_count (env : Env) (which k : Int) (s : State)
    (hon : s.play_sounds = true) (hr : c_abs which < env.NUM_SOUNDS)
    (hload : ∀ n, 0 ≤ n → n < env.NUM_SOUNDS → env.get n ≠ none)
    (h0 : 0 ≤ s.channel) (h4 : s.channel < numchannel) (hk : 0 < k) :
    play_sound env which 0 s = register s ∧
    (play_sound env which 0 s).dispatched = s.dispatched ∧
    (play_sound env which 0 s).channel = s.channel ∧
    plays (play_sound env which 0 s).trace = plays s.trace ∧
    (play_sound env which k s).dispatched =
      s.dispatched ++ List.replicate k.toNat (c_abs which) ∧
    (play_sound env which k s).channel = (s.channel + k) % numchannel ∧
    play_sound env which k s = play_sound_fuel env k.toNat which k s ∧
    (1 < k → play_sound env which k s =
      play_sound env (forced which) (k - 1) (play_sound env which 1 s)) ∧
    (on_demand s (c_abs which) = false → ∀ b, s.sound_handles (c_abs which) = some b →
      plays (play_sound env which k s).trace = plays s.trace ++
        (List.range k.toNat).map
          fun i : Nat => Event.play ((s.channel + 1 + i) % numchannel) b) ∧
    (on_demand s (c_abs which) = false → s.sound_handles (c_abs which) = none →
      plays (play_sound env which k s).trace = plays s.trace) ∧
    (on_demand s (c_abs which) = true → ∃ b, env.get (c_abs which) = some b ∧
      (s.sound_handles (c_abs which) = none →
        plays (play_sound env which k s).trace =
          plays s.trace ++ [Event.play ((s.channel + 1) % numchannel) b]) ∧
      ∀ c, s.sound_handles (c_abs which) = some c →
        plays (play_sound env which k s).trace = plays s.trace ++
          Event.play ((s.channel + 1) % numchannel) b ::
            (List.range (k.toNat - 1)).map
              fun i : Nat => Event.play ((s.channel + 2 + i) % numchannel) c) := by
  have hr1 : c_abs which ≤ env.NUM_SOUNDS := by omega
  have hd := play_sound_dispatched env which k s hon hr1 hk
  obtain ⟨ds, es, a1, -, a3, -, -, -, -⟩ := advances_play_sound env which k h0 h4
  have hds : ds = List.replicate k.toNat (c_abs which) := by
    rw [hd] at a1
    exact (List.append_cancel_left a1).symm
  have hlen : ds.length = k.toNat := by rw [hds, List.length_replicate]
  have hone := play_sound_once env which 1 s hon (by omega) (by omega) hr1
  refine ⟨play_sound_zero env which s, ?_, ?_, ?_, hd, ?_, ?_, ?_, ?_, ?_, ?_⟩
  · rw [play_sound_zero, register_dispatched]
  · rw [play_sound_zero, register_channel]
  · rw [play_sound_zero, plays_register]
  · rw [a3, hlen]
    simp only [numchannel]
    omega
  · unfold play_sound
    have e : (k - 1).toNat + 1 = k.toNat := by omega
    rw [e]
  · intro h1
    rw [play_sound_more env which k s hon h1 hr1, hone]
  · intro hdm b hb
    exact plays_play_sound_cached env b which k s hon hr1 h0 h4 hdm hb hk
  · intro hdm hb
    exact plays_play_sound_null env which k s (by simp [sndhandle, hdm, hb])
  · intro hdm
    obtain ⟨b, hb⟩ := Option.ne_none_iff_exists'.mp
      (hload (c_abs which) (c_abs_nonneg which) hr)
    have hs : sndhandle env s (c_abs which) = some b := by simp [sndhandle, hdm, hb]
    have hrange := next_channel_range h0 h4
    have hfirst : plays (dispatch env which (register s)).2.trace =
        plays s.trace ++ [Event.play ((s.channel + 1) % numchannel) b] := by
      rw [plays_dispatch, sndhandle_register, hs, plays_register, register_channel,
        next_channel_of_range h0 h4]
      rfl
    have hc : (dispatch env which (register s)).2.channel = (s.channel + 1) % 4 := by
      rw [dispatch_channel, register_channel, next_channel_of_range h0 h4]
    have hgo : on_demand (dispatch env which (register s)).2 (c_abs (forced which)) =
        false := by
      have hsp : (dispatch env which (register s)).2.snd_played =
          store s.snd_played (next_channel s.channel) (c_abs which) := by
        rw [dispatch_snd_played, sndhandle_register, hs, register_snd_played,
          register_channel]
      simp [on_demand, c_abs_forced, hsp, sound_going_recorded _ _ hrange.1 hrange.2]
    have hsh : (dispatch env which (register s)).2.sound_handles (c_abs (forced which)) =
        s.sound_handles (c_abs which) := by
      rw [c_abs_forced, dispatch_sound_handles, register_sound_handles]
    refine ⟨b, hb, ?_, ?_⟩
    · intro hnone
      by_cases h1 : 1 < k
      · rw [play_sound_more env which k s hon h1 hr1,
          plays_play_sound_null env (forced which) (k - 1) _
            (by simp [sndhandle, hgo, hsh, hnone])]
        exact hfirst
      · have e : k = 1 := by omega
        rw [e, hone]
        exact hfirst
    · intro c hsome
      by_cases h1 : 1 < k
      · have e : (k - 1).toNat = k.toNat - 1 := by omega
        rw [play_sound_more env which k s hon h1 hr1,
          plays_play_sound_cached env c (forced which) (k - 1) _
            (by rw [dispatch_play_sounds, register_play_sounds]; exact hon)
            (by rw [c_abs_forced]; exact hr1) (by rw [hc]; omega) (by rw [hc]; omega)
            hgo (by rw [hsh]; exact hsome) (by omega),
          hfirst, hc, e, List.append_assoc]
        congr 1
        simp only [List.singleton_append, List.cons.injEq, true_and]
        apply List.map_congr_left
        intro i _
        simp only [numchannel, Event.play.injEq, and_true]
        omega
      · have e : k = 1 := by omega
        rw [e, hone, hfirst]
        simp

/-- C4 amended, at concrete inputs in the state after `init_snd_tool`: sound 2 (fetched
on demand) requested twice is started once, and sound 1 (preloaded) requested three
times is started three times. -/
theorem C4_repeat_count_witness :
    ready.play_sounds = true ∧ c_abs 2 < env100.NUM_SOUNDS ∧ c_abs 1 < env100.NUM_SOUNDS ∧
    (∀ n, 0 ≤ n → n < env100.NUM_SOUNDS → env100.get n ≠ none) ∧
    0 ≤ ready.channel ∧ ready.channel < numchannel ∧
    (play_sound env100 2 2 ready).dispatched =
      ready.dispatched ++ List.replicate (2 : Int).toNat (c_abs 2) ∧
    plays (play_sound env100 2 2 ready).trace =
      plays ready.trace ++ [Event.play ((ready.channel + 1) % numchannel) ⟨2⟩] ∧
    plays (play_sound env100 1 3 ready).trace = plays ready.trace ++
      (List.range (3 : Int).toNat).map
        fun i : Nat => Event.play ((ready.channel + 1 + i) % numchannel) ⟨1⟩ := by
  have hload : ∀ n, 0 ≤ n → n < env100.NUM_SOUNDS → env100.get n ≠ none := by
    intro n h0 h1
    have h2 : n < 100 := h1
    simp [env100, h0, h2]
  have t2 := C4_repeat_count env100 2 2 ready rfl (by decide) hload (by decide) (by decide)
    (by decide)
  have t1 := C4_repeat_count env100 1 3 ready rfl (by decide) hload (by decide) (by decide)
    (by decide)
  refine ⟨rfl, by decide, by decide, hload, by decide, by decide, t2.2.2.2.2.1, ?_, ?_⟩
  · obtain ⟨b, hb, hnone, -⟩ := t2.2.2.2.2.2.2.2.2.2.2 (by decide)
    have hb2 : b = ⟨2⟩ := by
      have h : env100.get (c_abs 2) = some ⟨2⟩ := by decide
      rw [h] at hb
      exact (Option.some.inj hb).symm
    rw [← hb2]
    exact hnone (by decide)
  · exact t1.2.2.2.2.2.2.2.2.1 (by decide) ⟨1⟩ (by decide)

/-! ## C5: the channel cursor -/

/-- C5: from a cursor in `[0, 4)`, after any sequence of calls of the entry points the
cursor equals `(initial + N) mod 4`, where `N` is the number of dispatches made (the
entries added to `dispatched`, one for every pass through line 92); the cursor is again
in `[0, numchannel)`, every index used on `chan` (by a playback or a wait) is in
`[0, numchannel)`, and `snd_played` is written at no index outside `[0, numchannel)`.
The same holds for a single dispatch. -/
theorem C5_cursor_round_robin (env : Env) (ops : List Op) (s : State)
    (h0 : 0 ≤ s.channel) (h4 : s.channel < numchannel) :
    (∃ ds es, (run env ops s).dispatched = s.dispatched ++ ds ∧
      (run env ops s).trace = s.trace ++ es ∧
      (run env ops s).channel = (s.channel + ds.length) % numchannel ∧
      (∀ ch buf, Event.play ch buf ∈ es → 0 ≤ ch ∧ ch < numchannel) ∧
      (∀ ch, Event.wait ch ∈ es → 0 ≤ ch ∧ ch < numchannel) ∧
      (∀ i, i < 0 ∨ numchannel ≤ i → (run env ops s).snd_played i = s.snd_played i)) ∧
    0 ≤ (run env ops s).channel ∧ (run env ops s).channel < numchannel ∧
    (∀ which, (dispatch env which s).2.channel = (s.channel + 1) % numchannel) := by
  have a := advances_run env ops h0 h4
  have hr := a.range
  obtain ⟨ds, es, a1, a2, a3, a4, a5, a6, -⟩ := a
  refine ⟨⟨ds, es, a1, a2, a3, a4, a5, a6⟩, hr.1, hr.2, ?_⟩
  intro which
  rw [dispatch_channel, next_channel_of_range h0 h4]
  rfl

/-- C5, at a concrete input: a run from program start that makes five dispatches. -/
theorem C5_cursor_round_robin_witness :
    0 ≤ startup.channel ∧ startup.channel < numchannel ∧
    0 ≤ (run env100 [Op.init_snd_tool, Op.play_sound 2 3, Op.flip_sound, Op.play_sound 7 1,
      Op.flip_sound, Op.one_sound 9, Op.play_sound (-24) 1] startup).channel ∧
    (run env100 [Op.init_snd_tool, Op.play_sound 2 3, Op.flip_sound, Op.play_sound 7 1,
      Op.flip_sound, Op.one_sound 9, Op.play_sound (-24) 1] startup).channel < numchannel :=
  ⟨by decide, by decide,
    (C5_cursor_round_robin env100 _ startup (by decide) (by decide)).2.1,
    (C5_cursor_round_robin env100 _ startup (by decide) (by decide)).2.2.1⟩

/-! ## C6: play once -/

/-- C6 is false as stated: `last_played` is zero at program start, so there
`one_sound(0); one_sound(0)` never calls `play_sound`, and in `one_sound(0); one_sound(5)`
only the second call dispatches; likewise, after `one_sound(5); play_sound(7)`, the calls
`one_sound(5); one_sound(5)` dispatch nothing. -/
theorem C6_counterexample :
    ready.last_played = 0 ∧
    (one_sound env100 0 (one_sound env100 0 ready)).dispatched = [] ∧
    (one_sound env100 0 (one_sound env100 0 ready)).trace = ready.trace ∧
    (one_sound env100 5 (one_sound env100 0 ready)).dispatched = [5] ∧
    (run env100 [Op.one_sound 5, Op.play_sound 7 1] ready).dispatched = [5, 7] ∧
    (run env100 [Op.one_sound 5, Op.play_sound 7 1, Op.one_sound 5, Op.one_sound 5]
      ready).dispatched = [5, 7] := by
  decide

/-- C6, amended: a second `one_sound(s)` right after `one_sound(s)` does nothing; the
first one calls `play_sound(s)` exactly when `s` differs from `last_played`, and does
nothing otherwise, so the two calls make one dispatch of `s` when `s` differs from
`last_played` beforehand (playback enabled, `s` within the range check) and none when it
equals it.  In `one_sound(a); one_sound(b)` with `a != b` the second call always calls
`play_sound(b)`.  After any call `last_played` is the id passed. -/
theorem C6_one_sound_dedup (env : Env) (a b : Int) (s : State) (hab : a ≠ b) :
    one_sound env a (one_sound env a s) = one_sound env a s ∧
    (a ≠ s.last_played → one_sound env a s =
      { play_sound env a default_how_many_times s with last_played := a }) ∧
    (a = s.last_played → one_sound env a s = s) ∧
    (a ≠ s.last_played → s.play_sounds = true → c_abs a ≤ env.NUM_SOUNDS →
      (one_sound env a (one_sound env a s)).dispatched = s.dispatched ++ [c_abs a]) ∧
    (a = s.last_played →
      (one_sound env a (one_sound env a s)).dispatched = s.dispatched) ∧
    one_sound env b (one_sound env a s) =
      { play_sound env b default_how_many_times (one_sound env a s) with last_played := b } ∧
    (one_sound env a s).last_played = a := by
  have hlast : (one_sound env a s).last_played = a := by
    unfold one_sound
    split
    · rename_i h
      exact h.symm
    · rfl
  have hsame : ∀ t : State, t.last_played = a → one_sound env a t = t := by
    intro t ht
    simp [one_sound, ht]
  have hdiff : ∀ (w : Int) (t : State), w ≠ t.last_played → one_sound env w t =
      { play_sound env w default_how_many_times t with last_played := w } := by
    intro w t h
    simp [one_sound, h]
  refine ⟨hsame _ hlast, hdiff a s, fun h => hsame s h.symm, ?_, ?_, ?_, hlast⟩
  · intro h hon hr
    rw [hsame _ hlast, hdiff a s h]
    show (play_sound env a default_how_many_times s).dispatched = _
    rw [default_how_many_times,
      play_sound_once env a 1 s hon (by omega) (by omega) hr, dispatch_dispatched,
      register_dispatched]
  · intro h
    rw [hsame _ hlast, hsame s h.symm]
  · refine hdiff b _ ?_
    rw [hlast]
    exact fun h => hab h.symm

/-- C6 amended, at a concrete input: sounds 5 and 9 at program start. -/
theorem C6_one_sound_dedup_witness :
    (5 : Int) ≠ 9 ∧
    one_sound env100 5 (one_sound env100 5 startup) = one_sound env100 5 startup :=
  ⟨by decide, (C6_one_sound_dedup env100 5 9 startup (by decide)).1⟩

/-! ## C7: the post-play delay -/

/-- C7: a dispatch whose id is negative, or positive and in `always_async`, ends with
`sf::sleep` for `sound_delay[|id|]` ticks, which is the entry of the table when there is
one and 0 when there is none; the sleep comes after the playback (when a buffer was
resolved), there is no other sleep and no wait.  A dispatch whose id is not negative and
not in `always_async` sleeps not at all.  In particular `play_sound(24, 1)`, with
playback enabled, 24 within the range check, the cursor in `[0, 4)` and the table entry
25 for 24, leaves `which = -24`, advances the cursor by one, sleeps 25 ticks and does not
wait. -/
theorem C7_post_play_delay (env : Env) (which : Int) (s : State)
    (hon : s.play_sounds = true) (hr : c_abs which ≤ env.NUM_SOUNDS) :
    play_sound env which 1 s = (dispatch env which (register s)).2 ∧
    (which < 0 ∨ which ∈ always_async →
      ∃ es, (play_sound env which 1 s).trace =
          (register s).trace ++ es ++ [Event.sleep (delay_at s.sound_delay (c_abs which)).1] ∧
        (∀ d, Event.sleep d ∉ es) ∧ (∀ ch, Event.wait ch ∉ es) ∧
        (∀ buf, sndhandle env s (c_abs which) = some buf →
          Event.play (next_channel s.channel) buf ∈ es)) ∧
    (∀ d, s.sound_delay.lookup (c_abs which) = some d →
      (delay_at s.sound_delay (c_abs which)).1 = d) ∧
    (s.sound_delay.lookup (c_abs which) = none →
      (delay_at s.sound_delay (c_abs which)).1 = 0) ∧
    (0 ≤ which ∧ which ∉ always_async →
      ∃ es, (play_sound env which 1 s).trace = (register s).trace ++ es ∧
        ∀ d, Event.sleep d ∉ es) ∧
    (which = 24 → 0 ≤ s.channel → s.channel < numchannel →
      s.sound_delay.lookup 24 = some 25 →
      (dispatch env which (register s)).1 = -24 ∧
      (play_sound env which 1 s).channel = (s.channel + 1) % numchannel ∧
      ∃ es, (play_sound env which 1 s).trace = (register s).trace ++ es ++ [Event.sleep 25] ∧
        ∀ ch, Event.wait ch ∉ es) := by
  have hone := play_sound_once env which 1 s hon (by omega) (by omega) hr
  have hasync : which < 0 ∨ which ∈ always_async →
      ∃ es, (play_sound env which 1 s).trace =
          (register s).trace ++ es ++ [Event.sleep (delay_at s.sound_delay (c_abs which)).1] ∧
        (∀ d, Event.sleep d ∉ es) ∧ (∀ ch, Event.wait ch ∉ es) ∧
        (∀ buf, sndhandle env s (c_abs which) = some buf →
          Event.play (next_channel s.channel) buf ∈ es) := by
    intro h
    have hneg : forced which < 0 := by
      rcases h with h | h
      · rw [forced_of_nonpos (by omega)]
        exact h
      · have := always_async_pos h
        rw [forced_of_mem h]
        omega
    have hnp : ¬ 0 < forced which := by omega
    have hkey : -1 * forced which = c_abs which := by
      rw [← c_abs_forced which]
      unfold c_abs
      split <;> omega
    rw [hone, dispatch_trace]
    cases hh : sndhandle env s (c_abs which) with
    | none =>
      refine ⟨[fetch s (c_abs which)], ?_, ?_, ?_, ?_⟩
      · simp [dispatch_events, sndhandle_register, fetch_register, register_sound_delay,
          hh, hneg, hkey]
      · intro d
        unfold fetch
        split <;> simp
      · intro ch
        unfold fetch
        split <;> simp
      · intro buf hb
        simp at hb
    | some buf =>
      refine ⟨[fetch s (c_abs which), Event.play (next_channel s.channel) buf], ?_, ?_, ?_, ?_⟩
      · simp [dispatch_events, sndhandle_register, fetch_register, register_sound_delay,
          register_channel, hh, hneg, hnp, hkey]
      · intro d
        unfold fetch
        split <;> simp
      · intro ch
        unfold fetch
        split <;> simp
      · intro b hb
        simp only [Option.some.injEq] at hb
        simp [hb]
  refine ⟨hone, hasync, ?_, ?_, ?_, ?_⟩
  · intro d hd
    simp [delay_at, hd]
  · intro hd
    simp [delay_at, hd]
  · intro h
    have hf : forced which = which := forced_of_not_mem h.2
    have hnn : ¬ forced which < 0 := by omega
    rw [hone, dispatch_trace]
    refine ⟨dispatch_events env which (register s), rfl, ?_⟩
    intro d hm
    rcases mem_dispatch_events env which _ _ hm with h | ⟨b, -, h⟩ | ⟨-, h⟩ | ⟨hp, -⟩
    · unfold fetch at h
      split at h <;> simp at h
    · simp at h
    · simp at h
    · exact hnn hp
  · intro hw h0 h4 hd
    have hmem : which ∈ always_async := by
      rw [hw]
      decide
    obtain ⟨es, e1, -, e3, -⟩ := hasync (Or.inr hmem)
    have habs : c_abs which = 24 := by
      rw [hw]
      rfl
    have hd25 : (delay_at s.sound_delay (c_abs which)).1 = 25 := by
      rw [habs]
      simp [delay_at, hd]
    refine ⟨?_, ?_, es, ?_, e3⟩
    · rw [dispatch_fst, forced_of_mem hmem, hw]
    · rw [hone, dispatch_channel, register_channel, next_channel_of_range h0 h4]
      rfl
    · rw [e1, hd25]

/-- C7, at the input of the claim: `play_sound(24, 1)` after `init_snd_tool`. -/
theorem C7_post_play_delay_witness :
    ready.play_sounds = true ∧ c_abs 24 ≤ env100.NUM_SOUNDS ∧
    (dispatch env100 24 (register ready)).1 = -24 ∧
    (play_sound env100 24 1 ready).channel = (ready.channel + 1) % numchannel ∧
    ∃ es, (play_sound env100 24 1 ready).trace =
        (register ready).trace ++ es ++ [Event.sleep 25] ∧
      ∀ ch, Event.wait ch ∉ es :=
  ⟨rfl, by decide,
    (C7_post_play_delay env100 24 ready rfl (by decide)).2.2.2.2.2 rfl (by decide) (by decide)
      (by decide)⟩

/-! ## C8: the sentinel of `clear_sound_memory` -/

/-- C8 (the code departs from the claim at the id 100): with `NUM_SOUNDS = 100`,
`clear_sound_memory` sets `last_played` to 100 and changes nothing else, the id 100
passes the range check of `play_sound` (a direct `play_sound(100)` makes a dispatch), and
yet the first `one_sound(100)` after `clear_sound_memory` does nothing at all. -/
theorem C8_sentinel_is_accepted_id :
    (clear_sound_memory ready).last_played = 100 ∧
    clear_sound_memory ready = { ready with last_played := 100 } ∧
    ¬ c_abs 100 > env100.NUM_SOUNDS ∧
    (play_sound env100 100 1 (clear_sound_memory ready)).dispatched = [100] ∧
    (∀ n, Event.printf n ∉ (play_sound env100 100 1 (clear_sound_memory ready)).trace) ∧
    one_sound env100 100 (clear_sound_memory ready) = clear_sound_memory ready := by
  refine ⟨rfl, rfl, by decide, by decide, ?_, ?_⟩
  · intro n
    have e : (play_sound env100 100 1 (clear_sound_memory ready)).trace =
        ready.trace ++ [Event.setIdMapFn, Event.get 100] := by decide
    rw [e]
    simp [ready, init_snd_tool, init_load, load_on_init, State.emit, startup]
  · simp [one_sound, clear_sound_memory]

/-! ## C9: synchronous and asynchronous requests -/

/-- C9: with playback enabled and the id within the range check, a positive id outside
`always_async` whose buffer resolves is played and then waited for: the call
`play_sound(which, 1)` fetches the buffer, starts it on the next channel, runs the wait
loop on that same channel as its last action, records the id in `snd_played` at that
channel and keeps the sign of the id; a repeat is again such a call.  A negative id never
enters the wait loop, whatever the repeat count, and when its buffer resolves the
playback is started and followed by the sleep only. -/
theorem C9_sync_waits_async_returns (env : Env) (which : Int) (s : State)
    (hon : s.play_sounds = true) (hr : c_abs which ≤ env.NUM_SOUNDS) :
    (0 < which → which ∉ always_async → ∀ buf, sndhandle env s which = some buf →
      (play_sound env which 1 s).trace = (register s).trace ++
        [fetch s which, Event.play (next_channel s.channel) buf,
          Event.wait (next_channel s.channel)] ∧
      (play_sound env which 1 s).channel = next_channel s.channel ∧
      (play_sound env which 1 s).snd_played (next_channel s.channel) = which ∧
      (dispatch env which (register s)).1 = which ∧
      ∀ n, 1 < n → play_sound env which n s =
        play_sound env which (n - 1) (play_sound env which 1 s)) ∧
    (which < 0 →
      (∀ n, ∃ es, (play_sound env which n s).trace = s.trace ++ es ∧
        ∀ ch, Event.wait ch ∉ es) ∧
      ∀ buf, sndhandle env s (c_abs which) = some buf →
        (play_sound env which 1 s).trace = (register s).trace ++
          [fetch s (c_abs which), Event.play (next_channel s.channel) buf,
            Event.sleep (delay_at s.sound_delay (c_abs which)).1]) := by
  have hone := play_sound_once env which 1 s hon (by omega) (by omega) hr
  constructor
  · intro hp hna buf hb
    have hf : forced which = which := forced_of_not_mem hna
    have habs : c_abs which = which := c_abs_of_nonneg (by omega)
    have hnn : ¬ which < 0 := by omega
    refine ⟨?_, ?_, ?_, ?_, ?_⟩
    · rw [hone, dispatch_trace]
      simp [dispatch_events, sndhandle_register, fetch_register, register_channel, habs, hb,
        hf, hp, hnn]
    · rw [hone, dispatch_channel, register_channel]
    · rw [hone, dispatch_snd_played, sndhandle_register, habs, hb, register_channel]
      simp [store]
    · rw [dispatch_fst, hf]
    · intro n hn
      rw [play_sound_more env which n s hon hn hr, hf, hone]
  · intro hneg
    refine ⟨fun n => play_sound_no_wait env which n s (by omega), ?_⟩
    intro buf hb
    have hf : forced which = which := forced_of_nonpos (by omega)
    have hnp : ¬ 0 < which := by omega
    have hkey : -which = c_abs which := by
      unfold c_abs
      split <;> omega
    rw [hone, dispatch_trace]
    simp [dispatch_events, sndhandle_register, fetch_register, register_channel,
      register_sound_delay, hb, hf, hneg, hnp, hkey]

/-- C9, at a concrete input: sound 2 (synchronous) requested once after `init_snd_tool`. -/
theorem C9_sync_waits_async_returns_witness :
    ready.play_sounds = true ∧ c_abs 2 ≤ env100.NUM_SOUNDS ∧ (0 : Int) < 2 ∧
    (2 : Int) ∉ always_async ∧ sndhandle env100 ready 2 = some ⟨2⟩ ∧
    (play_sound env100 2 1 ready).trace = (register ready).trace ++
      [fetch ready 2, Event.play (next_channel ready.channel) ⟨2⟩,
        Event.wait (next_channel ready.channel)] :=
  ⟨rfl, by decide, by decide, by decide, by decide,
    ((C9_sync_waits_async_returns env100 2 ready rfl (by decide)).1 (by decide) (by decide)
      ⟨2⟩ (by decide)).1⟩

/-! ## C10: a buffer that does not resolve -/

/-- C10 is false as stated: the post-play delay is slept although no playback was
started.  With a loader that finds nothing, `play_sound(-24, 1)` at program start sleeps
25 ticks; and with a loader that resolves the whole catalog, the second dispatch of
`play_sound(-24, 2)` finds the empty catalog entry of sound 24 and sleeps 25 ticks
too. -/
theorem C10_counterexample :
    c_abs (-24) ≤ env_silent.NUM_SOUNDS ∧
    sndhandle env_silent startup (c_abs (-24)) = none ∧
    (play_sound env_silent (-24) 1 startup).trace =
      [Event.setIdMapFn, Event.get 24, Event.sleep 25] ∧
    ready.sound_handles 24 = none ∧
    (play_sound env100 (-24) 2 ready).trace = ready.trace ++
      [Event.setIdMapFn, Event.get 24, Event.play 1 ⟨24⟩, Event.sleep 25,
        Event.handle 24, Event.sleep 25] := by
  decide

/-- C10, amended: with playback enabled and the id within the range check, a dispatch
whose buffer is null starts no playback and enters no wait (its only events are the
fetch of the buffer and, when the id is negative after the forced-async override, the
sleep of `sound_delay[|id|]` ticks), leaves `snd_played` and the catalog unchanged,
advances the cursor and returns; the remaining repeats are attempted. -/
theorem C10_null_buffer_skips_playback (env : Env) (which : Int) (s : State)
    (hon : s.play_sounds = true) (hr : c_abs which ≤ env.NUM_SOUNDS)
    (hnull : sndhandle env s (c_abs which) = none) :
    (play_sound env which 1 s).trace = (register s).trace ++ [fetch s (c_abs which)] ++
      (if forced which < 0 then [Event.sleep (delay_at s.sound_delay (c_abs which)).1]
        else []) ∧
    (play_sound env which 1 s).snd_played = s.snd_played ∧
    (play_sound env which 1 s).sound_handles = s.sound_handles ∧
    (play_sound env which 1 s).channel = next_channel s.channel ∧
    (play_sound env which 1 s).dispatched = s.dispatched ++ [c_abs which] ∧
    ∀ n, 1 < n → play_sound env which n s =
      play_sound env (forced which) (n - 1) (play_sound env which 1 s) := by
  have hone := play_sound_once env which 1 s hon (by omega) (by omega) hr
  refine ⟨?_, ?_, ?_, ?_, ?_, ?_⟩
  · rw [hone, dispatch_trace]
    by_cases hneg : forced which < 0
    · have hkey : -forced which = c_abs which := by
        rw [← c_abs_forced which]
        unfold c_abs
        split <;> omega
      simp [dispatch_events, sndhandle_register, fetch_register, register_sound_delay, hnull,
        hneg, hkey]
    · simp [dispatch_events, sndhandle_register, fetch_register, hnull, hneg]
  · rw [hone, dispatch_snd_played, sndhandle_register, hnull, register_snd_played]
  · rw [hone, dispatch_sound_handles, register_sound_handles]
  · rw [hone, dispatch_channel, register_channel]
  · rw [hone, dispatch_dispatched, register_dispatched]
  · intro n hn
    rw [play_sound_more env which n s hon hn hr, hone]

/-- C10 amended, at a concrete input: sound 24 requested asynchronously at program start
with a loader that finds nothing. -/
theorem C10_null_buffer_skips_playback_witness :
    startup.play_sounds = true ∧ c_abs (-24) ≤ env_silent.NUM_SOUNDS ∧
    sndhandle env_silent startup (c_abs (-24)) = none ∧
    (play_sound env_silent (-24) 1 startup).snd_played = startup.snd_played :=
  ⟨rfl, by decide, by decide,
    (C10_null_buffer_skips_playback env_silent (-24) startup rfl (by decide)
      (by decide)).2.1⟩

/-! ## C11: which buffer a dispatch uses -/

theorem on_demand_iff (s : State) (n : Int) :
    on_demand s n = true ↔
      (s.snd_played 0 ≠ n ∧ s.snd_played 1 ≠ n ∧ s.snd_played 2 ≠ n ∧ s.snd_played 3 ≠ n) ∧
        n ∉ load_on_init := by
  simp [on_demand, sound_going, and_assoc]

/-- The events of a dispatch after the fetch of the buffer: the playback and the wait when
there is a buffer, then the sleep. -/
theorem dispatch_events_tail (env : Env) (which : Int) (s : State) :
    ∃ es, dispatch_events env which s = fetch s (c_abs which) :: es ∧
      (∀ e ∈ es, (∀ i, e ≠ Event.get i) ∧ ∀ i, e ≠ Event.handle i) ∧
      (∀ ch b, Event.play ch b ∈ es →
        sndhandle env s (c_abs which) = some b ∧ ch = next_channel s.channel) ∧
      ∀ b, sndhandle env s (c_abs which) = some b →
        Event.play (next_channel s.channel) b ∈ es := by
  by_cases h1 : 0 < forced which <;> by_cases h2 : forced which < 0 <;>
    cases hh : sndhandle env s (c_abs which) <;>
    simp [dispatch_events, h1, h2, hh]

/-- C11: in a dispatch of an id that passes the range check (playback enabled), the
buffer used is the result of the loader for `|id|` exactly when `|id|` is in none of the
four slots of `snd_played` and is not in `load_on_init`: then the loader is called once,
and the catalog is not read.  In every other case the buffer is the catalog entry
`sound_handles[|id|]` and the loader is not called.  A playback is started only with
that buffer, on the new cursor position; and when the buffer is non-null the dispatch
plays it and stores `|id|` in `snd_played` at the new cursor position, every other slot
keeping its value. -/
theorem C11_buffer_resolution (env : Env) (which : Int) (s : State)
    (hon : s.play_sounds = true) (hr : c_abs which ≤ env.NUM_SOUNDS) :
    (on_demand s (c_abs which) = true ↔
      (s.snd_played 0 ≠ c_abs which ∧ s.snd_played 1 ≠ c_abs which ∧
        s.snd_played 2 ≠ c_abs which ∧ s.snd_played 3 ≠ c_abs which) ∧
      c_abs which ∉ load_on_init) ∧
    (on_demand s (c_abs which) = true →
      sndhandle env s (c_abs which) = env.get (c_abs which) ∧
      fetch s (c_abs which) = Event.get (c_abs which)) ∧
    (on_demand s (c_abs which) = false →
      sndhandle env s (c_abs which) = s.sound_handles (c_abs which) ∧
      fetch s (c_abs which) = Event.handle (c_abs which)) ∧
    (∃ es, (play_sound env which 1 s).trace =
        (register s).trace ++ fetch s (c_abs which) :: es ∧
      (∀ e ∈ es, (∀ i, e ≠ Event.get i) ∧ ∀ i, e ≠ Event.handle i) ∧
      (∀ ch b, Event.play ch b ∈ es →
        sndhandle env s (c_abs which) = some b ∧ ch = next_channel s.channel) ∧
      ∀ b, sndhandle env s (c_abs which) = some b →
        Event.play (next_channel s.channel) b ∈ es) ∧
    (play_sound env which 1 s).channel = next_channel s.channel ∧
    (∀ b, sndhandle env s (c_abs which) = some b →
      (play_sound env which 1 s).snd_played (play_sound env which 1 s).channel = c_abs which ∧
      ∀ i, i ≠ (play_sound env which 1 s).channel →
        (play_sound env which 1 s).snd_played i = s.snd_played i) ∧
    (0 ≤ s.channel → s.channel < numchannel →
      0 ≤ (play_sound env which 1 s).channel ∧
        (play_sound env which 1 s).channel < numchannel) := by
  have hone := play_sound_once env which 1 s hon (by omega) (by omega) hr
  have hch : (play_sound env which 1 s).channel = next_channel s.channel := by
    rw [hone, dispatch_channel, register_channel]
  refine ⟨on_demand_iff s _, ?_, ?_, ?_, hch, ?_, ?_⟩
  · intro h
    simp [sndhandle, fetch, h]
  · intro h
    simp [sndhandle, fetch, h]
  · obtain ⟨es, h1, h2, h3, h4⟩ := dispatch_events_tail env which (register s)
    rw [sndhandle_register, fetch_register, register_channel] at *
    refine ⟨es, ?_, h2, h3, h4⟩
    rw [hone, dispatch_trace, h1]
  · intro b hb
    rw [hch, hone, dispatch_snd_played, sndhandle_register, hb, register_channel,
      register_snd_played]
    refine ⟨by simp [store], ?_⟩
    intro i hi
    simp [store, hi]
  · intro h0 h4
    rw [hch]
    exact next_channel_range h0 h4

/-- C11, at a concrete input: sound 2, which is neither going nor preloaded after
`init_snd_tool`, is fetched from the loader. -/
theorem C11_buffer_resolution_witness :
    ready.play_sounds = true ∧ c_abs 2 ≤ env100.NUM_SOUNDS ∧
    (on_demand ready (c_abs 2) = true ↔
      (ready.snd_played 0 ≠ c_abs 2 ∧ ready.snd_played 1 ≠ c_abs 2 ∧
        ready.snd_played 2 ≠ c_abs 2 ∧ ready.snd_played 3 ≠ c_abs 2) ∧
      c_abs 2 ∉ load_on_init) :=
  ⟨rfl, by decide, (C11_buffer_resolution env100 2 ready rfl (by decide)).1⟩

/-! ## C12: the catalog is filled by `init_snd_tool` only -/

theorem preload_only_startup : preload_only startup := by
  intro i h
  exact absurd rfl h

theorem preload_only_init_load (env : Env) {s : State} {j : Int} (hj : j ∈ load_on_init)
    (h : preload_only s) : preload_only (init_load env s j) := by
  unfold init_load
  split
  · exact h
  · rename_i hj0
    intro i hi
    by_cases hij : i = j
    · rw [hij]
      exact ⟨hj, hj0⟩
    · have e : store s.sound_handles j (env.get j) i = s.sound_handles i := by
        simp [store, hij]
      exact h i (by rw [← e]; exact hi)

theorem preload_only_fold (env : Env) (l : List Int) (hl : ∀ j ∈ l, j ∈ load_on_init)
    {s : State} (h : preload_only s) : preload_only (l.foldl (init_load env) s) := by
  induction l generalizing s with
  | nil => exact h
  | cons j l ih =>
    simp only [List.foldl_cons]
    exact ih (fun k hk => hl k (List.mem_cons_of_mem _ hk))
      (preload_only_init_load env (hl j (List.mem_cons_self _ _)) h)

theorem preload_only_step (env : Env) (op : Op) {s : State} (h : preload_only s) :
    preload_only (step env s op) := by
  cases op with
  | init_snd_tool =>
    have h2 : preload_only (s.emit [Event.setIdMapFn]) := h
    show preload_only (init_snd_tool env s)
    unfold init_snd_tool
    exact preload_only_fold env load_on_init (fun _ hj => hj) h2
  | play_sound which n =>
    intro i hi
    exact h i (by rw [← play_sound_sound_handles env which n s]; exact hi)
  | one_sound which =>
    intro i hi
    refine h i ?_
    simp only [step, one_sound] at hi
    split at hi
    · exact hi
    · rw [← play_sound_sound_handles env which default_how_many_times s]
      exact hi
  | clear_sound_memory => exact h
  | flip_sound => exact h

theorem preload_only_run (env : Env) (ops : List Op) {s : State} (h : preload_only s) :
    preload_only (run env ops s) := by
  induction ops generalizing s with
  | nil => exact h
  | cons op ops ih => exact ih (preload_only_step env op h)

/-- A dispatch whose buffer is null starts no playback. -/
theorem dispatch_no_play (env : Env) (which : Int) (s : State)
    (hnull : sndhandle env s (c_abs which) = none) :
    ∃ es, (dispatch env which s).2.trace = s.trace ++ es ∧ ∀ ch b, Event.play ch b ∉ es := by
  refine ⟨dispatch_events env which s, dispatch_trace env which s, ?_⟩
  intro ch b hm
  rcases mem_dispatch_events env which s _ hm with h | ⟨buf, hb, -⟩ | ⟨-, h⟩ | ⟨-, h⟩
  · unfold fetch at h
    split at h <;> simp at h
  · rw [hnull] at hb
    simp at hb
  · simp at h
  · simp at h

theorem sndhandle_zero {s : State} (env : Env) (h : preload_only s) :
    sndhandle env s 0 = none := by
  have hz : s.sound_handles 0 = none := by
    by_contra hc
    exact (h 0 hc).2 rfl
  have hd : on_demand s 0 = false := by
    simp [on_demand, load_on_init]
  simp [sndhandle, hd, hz]

theorem sndhandle_going {s : State} (env : Env) (h : preload_only s) {n : Int}
    (hn : n ∉ load_on_init) (hg : sound_going s.snd_played n = true) :
    sndhandle env s n = none := by
  have hz : s.sound_handles n = none := by
    by_contra hc
    exact hn (h n hc).1
  have hd : on_demand s n = false := by
    simp [on_demand, hg]
  simp [sndhandle, hd, hz]

theorem preload_only_dispatch (env : Env) (which : Int) {s : State} (h : preload_only s) :
    preload_only (dispatch env which (register s)).2 := by
  intro i hi
  rw [dispatch_sound_handles, register_sound_handles] at hi
  exact h i hi

theorem register_no_play (s : State) :
    ∃ es, (register s).trace = s.trace ++ es ∧ ∀ ch b, Event.play ch b ∉ es := by
  refine ⟨_, register_trace s, ?_⟩
  intro ch b
  split <;> simp

/-- No call of `play_sound` for sound 0 starts a playback while the catalog is filled at
indices of `load_on_init` other than 0 only. -/
theorem play_sound_zero_no_play (env : Env) (n : Int) {s : State} (h : preload_only s) :
    ∃ es, (play_sound env 0 n s).trace = s.trace ++ es ∧ ∀ ch b, Event.play ch b ∉ es := by
  have hdis : ∀ s : State, preload_only s →
      ∃ es, (dispatch env 0 (register s)).2.trace = s.trace ++ es ∧
        ∀ ch b, Event.play ch b ∉ es := by
    intro s hs
    obtain ⟨es1, h1, h2⟩ := register_no_play s
    have hnull : sndhandle env (register s) (c_abs 0) = none := by
      rw [sndhandle_register]
      exact sndhandle_zero env hs
    obtain ⟨es2, h3, h4⟩ := dispatch_no_play env 0 (register s) hnull
    refine ⟨es1 ++ es2, ?_, ?_⟩
    · rw [h3, h1, List.append_assoc]
    · intro ch b hm
      rcases List.mem_append.mp hm with hm | hm
      · exact h2 ch b hm
      · exact h4 ch b hm
  have key := play_sound_induction env
    (fun which _ s t => which = 0 → preload_only s →
      ∃ es, t.trace = s.trace ++ es ∧ ∀ ch b, Event.play ch b ∉ es)
    (fun _ _ s _ _ _ => register_no_play s)
    (fun which _ s _ _ _ _ _ => by
      obtain ⟨es, h1, h2⟩ := register_no_play s
      refine ⟨es ++ [Event.printf (c_abs which)], ?_, ?_⟩
      · simp [State.emit, h1]
      · intro ch b hm
        rcases List.mem_append.mp hm with hm | hm
        · exact h2 ch b hm
        · simp at hm)
    (fun which _ s _ _ _ _ hw hs => by
      rw [hw]
      exact hdis s hs)
    (fun which _ s t _ _ _ ih hw hs => by
      rw [hw] at ih
      obtain ⟨es1, h1, h2⟩ := hdis s hs
      obtain ⟨es2, h3, h4⟩ := ih (by decide) (preload_only_dispatch env 0 hs)
      refine ⟨es1 ++ es2, ?_, ?_⟩
      · rw [h3, h1, List.append_assoc]
      · intro ch b hm
        rcases List.mem_append.mp hm with hm | hm
        · exact h2 ch b hm
        · exact h4 ch b hm)
    0 n s
  exact key rfl h

/-- C12: in every state reached from program start by calls of the entry points (in
particular `init_snd_tool` followed by any calls of `play_sound`, `one_sound`,
`flip_sound` and `clear_sound_memory`), `sound_handles[i]` is non-null only for `i` in
`load_on_init` other than 0: `play_sound` never writes the catalog, and a dispatch
changes a slot of `snd_played` only by storing its own `|id|` there.  Hence, in such a
state, a dispatch of a sound outside `load_on_init` that is recorded in a slot of
`snd_played` has a null buffer and starts no playback, whatever the loader returns, and
no call of `play_sound` for sound 0 starts a playback.  With a loader that resolves the
whole catalog, `play_sound(2, 2)` after `init_snd_tool` makes two dispatches and starts
sound 2 once. -/
theorem C12_catalog_preload_only (env : Env) (ops : List Op) :
    (∀ i, (run env ops startup).sound_handles i ≠ none → i ∈ load_on_init ∧ i ≠ 0) ∧
    (∀ which n (t : State), (play_sound env which n t).sound_handles = t.sound_handles) ∧
    (∀ which (t : State) i, (dispatch env which t).2.snd_played i = t.snd_played i ∨
      (dispatch env which t).2.snd_played i = c_abs which) ∧
    (∀ which, c_abs which ∉ load_on_init →
      sound_going (run env ops startup).snd_played (c_abs which) = true →
      sndhandle env (run env ops startup) (c_abs which) = none ∧
      ∃ es, (dispatch env which (run env ops startup)).2.trace =
          (run env ops startup).trace ++ es ∧
        ∀ ch b, Event.play ch b ∉ es) ∧
    (∀ n, ∃ es, (play_sound env 0 n (run env ops startup)).trace =
        (run env ops startup).trace ++ es ∧
      ∀ ch b, Event.play ch b ∉ es) ∧
    run env100 [Op.init_snd_tool] startup = ready ∧
    (play_sound env100 2 2 ready).dispatched = [2, 2] ∧
    plays (play_sound env100 2 2 ready).trace = [Event.play 1 ⟨2⟩] := by
  have hinv := preload_only_run env ops preload_only_startup
  refine ⟨hinv, play_sound_sound_handles env, ?_, ?_, ?_, rfl, by decide, by decide⟩
  · intro which t i
    rw [dispatch_snd_played]
    split
    · by_cases hi : i = next_channel t.channel
      · right
        simp [store, hi]
      · left
        simp [store, hi]
    · left
      rfl
  · intro which hn hg
    have hnull := sndhandle_going env hinv hn hg
    exact ⟨hnull, dispatch_no_play env which _ hnull⟩
  · intro n
    exact play_sound_zero_no_play env n hinv

/-- C12, at a concrete run: after `init_snd_tool` and `play_sound(2, 1)` the catalog
entry of sound 2 is still null. -/
theorem C12_catalog_preload_only_witness :
    (2 : Int) ∉ load_on_init ∧
    (run env100 [Op.init_snd_tool, Op.play_sound 2 1] startup).sound_handles 2 = none := by
  refine ⟨by decide, ?_⟩
  by_contra hc
  exact absurd ((C12_catalog_preload_only env100
    [Op.init_snd_tool, Op.play_sound 2 1]).1 2 hc).1 (by decide)

end SoundTool
